import Mathlib

/-!
Verification of the ethtool netlink request/reply engine
(`net/ethtool/netlink.c`, `net/ethtool/settings.c`, `net/ethtool/params.c`
and the four-category device-parameters handler) against its
natural-language specification.

The development shallowly embeds the C sources: netlink messages become
trees of attributes carrying exact wire sizes (`nla_total_size`),
per-device driver operations become `Option`/`Except` valued fields,
reference counting becomes explicit get/put counters, and the dump
iteration becomes a pure step function on a bucket-list registry with an
explicit `(hash bucket, in-bucket index)` cursor.
-/

namespace EthNl

/-! ## Netlink attribute sizes and message trees -/

/-- `NLA_ALIGN(payload + NLA_HDRLEN)`: total wire size in bytes of one
netlink attribute with the given payload length (header is 4 bytes,
everything rounded up to 4-byte alignment). -/
def nla_total_size (payload : Nat) : Nat := (payload + 4 + 3) / 4 * 4

/-- Little-endian byte serialization of a 32-bit value, as written by
`nla_put_u32`. -/
def mkU32 (n : Nat) : List Nat :=
  [n % 256, n / 256 % 256, n / 65536 % 256, n / 16777216 % 256]

/-- A netlink attribute: either a flat attribute with a payload
(`nla_put_u8`, `nla_put_u32`, `nla_put`, ...) or a nested container
(`nla_nest_start` / `nla_nest_end`). -/
inductive Attr : Type where
  | leaf (tag : Nat) (payload : List Nat)
  | nest (tag : Nat) (children : List Attr)

mutual

/-- Number of bytes an attribute occupies on the wire. -/
def attrSize : Attr → Nat
  | .leaf _ p => nla_total_size p.length
  | .nest _ cs => nla_total_size (attrListSize cs)

/-- Total wire size of a sequence of attributes. -/
def attrListSize : List Attr → Nat
  | [] => 0
  | a :: as => attrSize a + attrListSize as

end

/-- Top-level tag of an attribute. -/
def Attr.tag : Attr → Nat
  | .leaf t _ => t
  | .nest t _ => t

/-! ## Constants

Numeric attribute-tag and info-mask values come from the uapi header
`linux/ethtool_netlink.h`, which is not part of the provided sources; only
their distinctness and the composition of the ALL masks matter here.
Errno values are the standard Linux ones. -/

def EINVAL : Nat := 22
def ENODEV : Nat := 19
def EMSGSIZE : Nat := 90
def EOPNOTSUPP : Nat := 95

def ETHTOOL_A_SETTINGS_LINK_INFO : Nat := 4
def ETHTOOL_A_SETTINGS_LINK_MODES : Nat := 5
def ETHTOOL_A_SETTINGS_LINK_STATE : Nat := 6
def ETHTOOL_A_SETTINGS_WOL : Nat := 7

def ETHTOOL_A_PARAMS_COALESCE : Nat := 4
def ETHTOOL_A_PARAMS_RING : Nat := 5
def ETHTOOL_A_PARAMS_PAUSE : Nat := 6
def ETHTOOL_A_PARAMS_CHANNELS : Nat := 7

def ETHTOOL_IM_SETTINGS_LINKINFO : Nat := 1
def ETHTOOL_IM_SETTINGS_LINKMODES : Nat := 2
def ETHTOOL_IM_SETTINGS_LINKSTATE : Nat := 4
def ETHTOOL_IM_SETTINGS_WOL : Nat := 8

/-- Modelled from the spec: the full set of categories of the link-settings
command (the literal value of `ETHTOOL_IM_SETTINGS_ALL` lives in the absent
uapi header; per the spec it is the union of the four category bits). -/
def ETHTOOL_IM_SETTINGS_ALL : Nat :=
  ETHTOOL_IM_SETTINGS_LINKINFO ||| ETHTOOL_IM_SETTINGS_LINKMODES |||
  ETHTOOL_IM_SETTINGS_LINKSTATE ||| ETHTOOL_IM_SETTINGS_WOL

def ETHTOOL_IM_PARAMS_COALESCE : Nat := 1
def ETHTOOL_IM_PARAMS_RING : Nat := 2
def ETHTOOL_IM_PARAMS_PAUSE : Nat := 4
def ETHTOOL_IM_PARAMS_CHANNELS : Nat := 8

/-- Modelled from the spec: the full set of categories of the
device-parameters command. -/
def ETHTOOL_IM_PARAMS_ALL : Nat :=
  ETHTOOL_IM_PARAMS_COALESCE ||| ETHTOOL_IM_PARAMS_RING |||
  ETHTOOL_IM_PARAMS_PAUSE ||| ETHTOOL_IM_PARAMS_CHANNELS

/-- `m &= ~bits` on a 32-bit mask. -/
def clear32 (m bits : Nat) : Nat := m &&& ((2 ^ 32 - 1) ^^^ bits)

/-! ## Link mode table (`link_mode_params` in settings.c) -/

def __ETHTOOL_LINK_MODE_MASK_NBITS : Nat := 67

def SPEED_UNKNOWN : Nat := 4294967295
def DUPLEX_HALF : Nat := 0
def DUPLEX_FULL : Nat := 1
def DUPLEX_UNKNOWN : Nat := 255

structure LinkModeInfo where
  speed : Nat
  duplex : Nat
deriving DecidableEq

/-- The static Link Mode Table: index = `ETHTOOL_LINK_MODE_*_BIT`, entries
exactly as initialized in `settings.c` (special, non-speed modes carry
`SPEED_UNKNOWN`/`DUPLEX_UNKNOWN`). -/
def link_mode_params : List LinkModeInfo := [
  ⟨10, DUPLEX_HALF⟩,                    -- 0  10baseT/Half
  ⟨10, DUPLEX_FULL⟩,                    -- 1  10baseT/Full
  ⟨100, DUPLEX_HALF⟩,                   -- 2  100baseT/Half
  ⟨100, DUPLEX_FULL⟩,                   -- 3  100baseT/Full
  ⟨1000, DUPLEX_HALF⟩,                  -- 4  1000baseT/Half
  ⟨1000, DUPLEX_FULL⟩,                  -- 5  1000baseT/Full
  ⟨SPEED_UNKNOWN, DUPLEX_UNKNOWN⟩,      -- 6  Autoneg
  ⟨SPEED_UNKNOWN, DUPLEX_UNKNOWN⟩,      -- 7  TP
  ⟨SPEED_UNKNOWN, DUPLEX_UNKNOWN⟩,      -- 8  AUI
  ⟨SPEED_UNKNOWN, DUPLEX_UNKNOWN⟩,      -- 9  MII
  ⟨SPEED_UNKNOWN, DUPLEX_UNKNOWN⟩,      -- 10 FIBRE
  ⟨SPEED_UNKNOWN, DUPLEX_UNKNOWN⟩,      -- 11 BNC
  ⟨10000, DUPLEX_FULL⟩,                 -- 12 10000baseT/Full
  ⟨SPEED_UNKNOWN, DUPLEX_UNKNOWN⟩,      -- 13 Pause
  ⟨SPEED_UNKNOWN, DUPLEX_UNKNOWN⟩,      -- 14 Asym_Pause
  ⟨2500, DUPLEX_FULL⟩,                  -- 15 2500baseX/Full
  ⟨SPEED_UNKNOWN, DUPLEX_UNKNOWN⟩,      -- 16 Backplane
  ⟨1000, DUPLEX_FULL⟩,                  -- 17 1000baseKX/Full
  ⟨10000, DUPLEX_FULL⟩,                 -- 18 10000baseKX4/Full
  ⟨10000, DUPLEX_FULL⟩,                 -- 19 10000baseKR/Full
  ⟨10000, DUPLEX_FULL⟩,                 -- 20 10000baseR_FEC
  ⟨20000, DUPLEX_FULL⟩,                 -- 21 20000baseMLD2/Full
  ⟨20000, DUPLEX_FULL⟩,                 -- 22 20000baseKR2/Full
  ⟨40000, DUPLEX_FULL⟩,                 -- 23 40000baseKR4/Full
  ⟨40000, DUPLEX_FULL⟩,                 -- 24 40000baseCR4/Full
  ⟨40000, DUPLEX_FULL⟩,                 -- 25 40000baseSR4/Full
  ⟨40000, DUPLEX_FULL⟩,                 -- 26 40000baseLR4/Full
  ⟨56000, DUPLEX_FULL⟩,                 -- 27 56000baseKR4/Full
  ⟨56000, DUPLEX_FULL⟩,                 -- 28 56000baseCR4/Full
  ⟨56000, DUPLEX_FULL⟩,                 -- 29 56000baseSR4/Full
  ⟨56000, DUPLEX_FULL⟩,                 -- 30 56000baseLR4/Full
  ⟨25000, DUPLEX_FULL⟩,                 -- 31 25000baseCR/Full
  ⟨25000, DUPLEX_FULL⟩,                 -- 32 25000baseKR/Full
  ⟨25000, DUPLEX_FULL⟩,                 -- 33 25000baseSR/Full
  ⟨50000, DUPLEX_FULL⟩,                 -- 34 50000baseCR2/Full
  ⟨50000, DUPLEX_FULL⟩,                 -- 35 50000baseKR2/Full
  ⟨100000, DUPLEX_FULL⟩,                -- 36 100000baseKR4/Full
  ⟨100000, DUPLEX_FULL⟩,                -- 37 100000baseSR4/Full
  ⟨100000, DUPLEX_FULL⟩,                -- 38 100000baseCR4/Full
  ⟨100000, DUPLEX_FULL⟩,                -- 39 100000baseLR4_ER4/Full
  ⟨50000, DUPLEX_FULL⟩,                 -- 40 50000baseSR2/Full
  ⟨1000, DUPLEX_FULL⟩,                  -- 41 1000baseX/Full
  ⟨10000, DUPLEX_FULL⟩,                 -- 42 10000baseCR/Full
  ⟨10000, DUPLEX_FULL⟩,                 -- 43 10000baseSR/Full
  ⟨10000, DUPLEX_FULL⟩,                 -- 44 10000baseLR/Full
  ⟨10000, DUPLEX_FULL⟩,                 -- 45 10000baseLRM/Full
  ⟨10000, DUPLEX_FULL⟩,                 -- 46 10000baseER/Full
  ⟨2500, DUPLEX_FULL⟩,                  -- 47 2500baseT/Full
  ⟨5000, DUPLEX_FULL⟩,                  -- 48 5000baseT/Full
  ⟨SPEED_UNKNOWN, DUPLEX_UNKNOWN⟩,      -- 49 FEC_NONE
  ⟨SPEED_UNKNOWN, DUPLEX_UNKNOWN⟩,      -- 50 FEC_RS
  ⟨SPEED_UNKNOWN, DUPLEX_UNKNOWN⟩,      -- 51 FEC_BASER
  ⟨50000, DUPLEX_FULL⟩,                 -- 52 50000baseKR/Full
  ⟨50000, DUPLEX_FULL⟩,                 -- 53 50000baseSR/Full
  ⟨50000, DUPLEX_FULL⟩,                 -- 54 50000baseCR/Full
  ⟨50000, DUPLEX_FULL⟩,                 -- 55 50000baseLR_ER_FR/Full
  ⟨50000, DUPLEX_FULL⟩,                 -- 56 50000baseDR/Full
  ⟨100000, DUPLEX_FULL⟩,                -- 57 100000baseKR2/Full
  ⟨100000, DUPLEX_FULL⟩,                -- 58 100000baseSR2/Full
  ⟨100000, DUPLEX_FULL⟩,                -- 59 100000baseCR2/Full
  ⟨100000, DUPLEX_FULL⟩,                -- 60 100000baseLR2_ER2_FR2/Full
  ⟨100000, DUPLEX_FULL⟩,                -- 61 100000baseDR2/Full
  ⟨200000, DUPLEX_FULL⟩,                -- 62 200000baseKR4/Full
  ⟨200000, DUPLEX_FULL⟩,                -- 63 200000baseSR4/Full
  ⟨200000, DUPLEX_FULL⟩,                -- 64 200000baseLR4_ER4_FR4/Full
  ⟨200000, DUPLEX_FULL⟩,                -- 65 200000baseDR4/Full
  ⟨200000, DUPLEX_FULL⟩]                -- 66 200000baseCR4/Full

/-! ## Data structures of the two handlers -/

structure LinkSettings where
  speed : Nat := 0
  duplex : Nat := 0
  port : Nat := 0
  phy_address : Nat := 0
  autoneg : Nat := 0
  eth_tp_mdix : Nat := 0
  eth_tp_mdix_ctrl : Nat := 0
  transceiver : Nat := 0
deriving DecidableEq

/-- Link-mode bitmaps of `ethtool_link_ksettings`; bit `i` of a bitmap is
`getD i false`. -/
structure LinkModes where
  supported : List Bool := []
  advertising : List Bool := []
  lp_advertising : List Bool := []
deriving DecidableEq

structure KSettings where
  base : LinkSettings := {}
  link_modes : LinkModes := {}
deriving DecidableEq

structure WolInfo where
  supported : Nat := 0
  wolopts : Nat := 0
  sopass : List Nat := []
deriving DecidableEq

/-- `bitmap_empty(v, n)`. -/
def bitmapEmpty (v : List Bool) (n : Nat) : Bool :=
  (List.range n).all (fun i => !(v.getD i false))

/-! ## Bitset codec

`net/ethtool/bitset.c` is not among the provided sources.
Modelled from the spec: the codec has two wire shapes selected by the
compact flag — compact is a raw bitmap rounded to 32-bit words (plus the
second bitmap when a mask is supplied), list is one selector sub-record per
relevant bit (bits set in the mask when a mask is supplied, otherwise bits
set in the value), each naming the bit with its index and its
NUL-terminated name; and `size` returns the exact encoded byte length of
the encoding with the same arguments. -/

def bitmapByte (v : List Bool) (k : Nat) : Nat :=
  (List.range 8).foldl (fun acc j => acc + (if v.getD (8 * k + j) false then 2 ^ j else 0)) 0

/-- Raw bitmap of `nbits` bits rounded up to 32-bit words. -/
def bitmapBytes (nbits : Nat) (v : List Bool) : List Nat :=
  (List.range ((nbits + 31) / 32 * 4)).map (bitmapByte v)

/-- Indices of the bits a list-form bitset mentions. -/
def bitsetRelevant (nbits : Nat) (value : List Bool) (mask : Option (List Bool)) : List Nat :=
  (List.range nbits).filter (fun i => (mask.getD value).getD i false)

/-- Modelled from the spec: `ethnl_put_bitset32`. -/
def ethnl_put_bitset32 (tag nbits : Nat) (value : List Bool) (mask : Option (List Bool))
    (names : Nat → List Nat) (compact : Bool) : Attr :=
  if compact then
    .nest tag ([.leaf 1 (bitmapBytes nbits value)] ++
      (match mask with
       | some m => [.leaf 2 (bitmapBytes nbits m)]
       | none => []))
  else
    .nest tag ((bitsetRelevant nbits value mask).map
      (fun i => .nest 3 [.leaf 4 (mkU32 i), .leaf 5 (names i ++ [0])]))

/-- Modelled from the spec: `ethnl_bitset32_size` returns the exact byte
length of the encoding produced from the same arguments. -/
def ethnl_bitset32_size (nbits : Nat) (value : List Bool) (mask : Option (List Bool))
    (names : Nat → List Nat) (compact : Bool) : Nat :=
  attrSize (ethnl_put_bitset32 0 nbits value mask names compact)

/-! ## Settings handler: GET (`settings.c`) -/

/-- The per-device operations the settings handler consumes (the opaque
capability interface of the spec): `none` means the operation is missing
or failed. `__ethtool_get_link` either yields the link state or fails with
`-EOPNOTSUPP` when the device has no `get_link` operation. -/
structure SettingsOps where
  ksettings : Option KSettings := none
  link : Option Bool := none
  wol : Option WolInfo := none
deriving DecidableEq

/-- The reply-scratch part of `struct settings_data` after `prepare_data`,
together with the request-half fields `compact` and `privileged` it is
filled from. -/
structure SettingsData where
  privileged : Bool
  compact : Bool
  info_mask : Nat
  ksettings : KSettings
  link : Int
  wolinfo : WolInfo
  lpm_empty : Bool
deriving DecidableEq

/-- `prepare_settings`: gathers each requested category, dropping
link-info/link-modes and wake-on-LAN from the achieved mask when the
underlying operation fails; the link state is stored as the raw
(possibly negative) return of `__ethtool_get_link`. Always succeeds
(the `ethnl_before_ops` preamble is outside the modelled scope). -/
def prepare_settings (ops : SettingsOps) (req_mask : Nat) (compact privileged : Bool) :
    SettingsData :=
  let s1 : KSettings × Nat :=
    if req_mask &&& (ETHTOOL_IM_SETTINGS_LINKINFO ||| ETHTOOL_IM_SETTINGS_LINKMODES) ≠ 0 then
      match ops.ksettings with
      | some ks => (ks, req_mask)
      | none => ({}, clear32 req_mask
          (ETHTOOL_IM_SETTINGS_LINKINFO ||| ETHTOOL_IM_SETTINGS_LINKMODES))
    else ({}, req_mask)
  let ks := s1.1
  let m1 := s1.2
  let lpm_empty :=
    if m1 &&& ETHTOOL_IM_SETTINGS_LINKMODES ≠ 0 then
      bitmapEmpty ks.link_modes.lp_advertising __ETHTOOL_LINK_MODE_MASK_NBITS
    else true
  let link : Int :=
    if m1 &&& ETHTOOL_IM_SETTINGS_LINKSTATE ≠ 0 then
      match ops.link with
      | some b => if b then 1 else 0
      | none => -(EOPNOTSUPP : Int)
    else -(EOPNOTSUPP : Int)
  let s2 : WolInfo × Nat :=
    if m1 &&& ETHTOOL_IM_SETTINGS_WOL ≠ 0 then
      match ops.wol with
      | some w => (w, m1)
      | none => ({}, clear32 m1 ETHTOOL_IM_SETTINGS_WOL)
    else ({}, m1)
  { privileged := privileged, compact := compact, info_mask := s2.2,
    ksettings := ks, link := link, wolinfo := s2.1, lpm_empty := lpm_empty }

/-- Modelled from the spec: `dev_ident_size()` (header not under the
provided sources) — room for the device identification nest holding the
interface index and the name bounded by `IFNAMSIZ` = 16 bytes. -/
def dev_ident_size : Nat := nla_total_size (nla_total_size 4 + nla_total_size 16)

def link_info_size : Nat :=
  nla_total_size (5 * nla_total_size 1 + nla_total_size 8)

def link_modes_size (ks : KSettings) (names : Nat → List Nat) (compact : Bool) : Nat :=
  nla_total_size
    (nla_total_size 4 + 2 * nla_total_size 1 +
     ethnl_bitset32_size __ETHTOOL_LINK_MODE_MASK_NBITS ks.link_modes.advertising
       (some ks.link_modes.supported) names compact +
     ethnl_bitset32_size __ETHTOOL_LINK_MODE_MASK_NBITS ks.link_modes.lp_advertising
       none names false)

def link_state_size (link : Int) : Nat :=
  if link < 0 then nla_total_size 0 else nla_total_size (nla_total_size 1)

def wol_size : Nat :=
  nla_total_size (nla_total_size 8 + nla_total_size 6)

/-- `settings_size`: reply length upper bound as computed from the
achieved info mask. -/
def settings_size (d : SettingsData) (names : Nat → List Nat) : Nat :=
  dev_ident_size +
  (if d.info_mask &&& ETHTOOL_IM_SETTINGS_LINKINFO ≠ 0 then link_info_size else 0) +
  (if d.info_mask &&& ETHTOOL_IM_SETTINGS_LINKMODES ≠ 0 then
    link_modes_size d.ksettings names d.compact else 0) +
  (if d.info_mask &&& ETHTOOL_IM_SETTINGS_LINKSTATE ≠ 0 then link_state_size d.link else 0) +
  (if d.info_mask &&& ETHTOOL_IM_SETTINGS_WOL ≠ 0 then wol_size else 0)

def fill_link_info (l : LinkSettings) : Attr :=
  .nest ETHTOOL_A_SETTINGS_LINK_INFO [
    .leaf 1 [l.port % 256],
    .leaf 2 [l.phy_address % 256],
    .leaf 3 [l.eth_tp_mdix % 256],
    .leaf 4 [l.eth_tp_mdix_ctrl % 256],
    .leaf 5 [l.transceiver % 256]]

def fill_link_modes (ks : KSettings) (lpm_empty compact : Bool) (names : Nat → List Nat) : Attr :=
  .nest ETHTOOL_A_SETTINGS_LINK_MODES
    ([.leaf 1 [ks.base.autoneg % 256],
      ethnl_put_bitset32 2 __ETHTOOL_LINK_MODE_MASK_NBITS ks.link_modes.advertising
        (some ks.link_modes.supported) names compact] ++
     (if lpm_empty then [] else
      [ethnl_put_bitset32 3 __ETHTOOL_LINK_MODE_MASK_NBITS ks.link_modes.lp_advertising
        none names compact]) ++
     [.leaf 4 (mkU32 ks.base.speed),
      .leaf 5 [ks.base.duplex % 256]])

def fill_link_state (link : Int) : Attr :=
  .nest ETHTOOL_A_SETTINGS_LINK_STATE
    (if 0 ≤ link then [.leaf 1 [if link ≠ 0 then 1 else 0]] else [])

def fill_wolinfo (w : WolInfo) (privileged : Bool) : Attr :=
  .nest ETHTOOL_A_SETTINGS_WOL
    ([.leaf 1 (mkU32 w.wolopts ++ mkU32 w.supported)] ++
     (if privileged then [.leaf 2 ((w.sopass ++ List.replicate 6 0).take 6)] else []))

/-- `fill_settings`: the sequence of category sub-containers the handler
appends to the reply (the device identification nest is added by the
engine, not by this callback). -/
def fill_settings (d : SettingsData) (names : Nat → List Nat) : List Attr :=
  (if d.info_mask &&& ETHTOOL_IM_SETTINGS_LINKINFO ≠ 0 then
    [fill_link_info d.ksettings.base] else []) ++
  (if d.info_mask &&& ETHTOOL_IM_SETTINGS_LINKMODES ≠ 0 then
    [fill_link_modes d.ksettings d.lpm_empty d.compact names] else []) ++
  (if d.info_mask &&& ETHTOOL_IM_SETTINGS_LINKSTATE ≠ 0 then
    [fill_link_state d.link] else []) ++
  (if d.info_mask &&& ETHTOOL_IM_SETTINGS_WOL ≠ 0 then
    [fill_wolinfo d.wolinfo d.privileged] else [])

/-- The info-mask fixup in `parse_settings`: an absent attribute leaves the
zero-initialized mask, and a zero mask is replaced by the ALL mask. -/
def parse_settings_req_mask (infomask : Option Nat) : Nat :=
  let m := match infomask with
    | some v => v
    | none => 0
  if m = 0 then ETHTOOL_IM_SETTINGS_ALL else m

/-! ## Device-parameters handler (four-category version) -/

structure Coalesce where
  rx_coalesce_usecs : Nat := 0
  rx_max_coalesced_frames : Nat := 0
  rx_coalesce_usecs_irq : Nat := 0
  rx_max_coalesced_frames_irq : Nat := 0
  rx_coalesce_usecs_low : Nat := 0
  rx_max_coalesced_frames_low : Nat := 0
  rx_coalesce_usecs_high : Nat := 0
  rx_max_coalesced_frames_high : Nat := 0
  tx_coalesce_usecs : Nat := 0
  tx_max_coalesced_frames : Nat := 0
  tx_coalesce_usecs_irq : Nat := 0
  tx_max_coalesced_frames_irq : Nat := 0
  tx_coalesce_usecs_low : Nat := 0
  tx_max_coalesced_frames_low : Nat := 0
  tx_coalesce_usecs_high : Nat := 0
  tx_max_coalesced_frames_high : Nat := 0
  pkt_rate_low : Nat := 0
  pkt_rate_high : Nat := 0
  use_adaptive_rx_coalesce : Nat := 0
  use_adaptive_tx_coalesce : Nat := 0
  rate_sample_interval : Nat := 0
  stats_block_coalesce_usecs : Nat := 0
deriving DecidableEq

structure RingParam where
  rx_max_pending : Nat := 0
  rx_mini_max_pending : Nat := 0
  rx_jumbo_max_pending : Nat := 0
  tx_max_pending : Nat := 0
  rx_pending : Nat := 0
  rx_mini_pending : Nat := 0
  rx_jumbo_pending : Nat := 0
  tx_pending : Nat := 0
deriving DecidableEq

structure PauseParam where
  autoneg : Nat := 0
  rx_pause : Nat := 0
  tx_pause : Nat := 0
deriving DecidableEq

structure Channels where
  max_rx : Nat := 0
  max_tx : Nat := 0
  max_other : Nat := 0
  max_combined : Nat := 0
  rx_count : Nat := 0
  tx_count : Nat := 0
  other_count : Nat := 0
  combined_count : Nat := 0
deriving DecidableEq

deriving instance DecidableEq for Except

/-- The `ethtool_ops` surface the parameters handler consumes.
`coalesce = none` models a missing `get_coalesce` operation,
`coalesce = some (.error e)` a present operation that fails; the
ring/pause/channels get operations cannot fail, so a plain `Option`
models their presence. `has_set_*` is the presence of the corresponding
set operation and `set_*_res` the (argument-independent) outcome the
driver would report. -/
structure ParamsOps where
  coalesce : Option (Except Nat Coalesce) := none
  ring : Option RingParam := none
  pause : Option PauseParam := none
  channels : Option Channels := none
  has_set_coalesce : Bool := false
  has_set_ringparam : Bool := false
  has_set_pauseparam : Bool := false
  has_set_channels : Bool := false
  set_coalesce_res : Except Nat Unit := .ok ()
  set_ringparam_res : Except Nat Unit := .ok ()
  set_pauseparam_res : Except Nat Unit := .ok ()
  set_channels_res : Except Nat Unit := .ok ()
deriving DecidableEq

/-- Reply-scratch part of `struct params_data` after `prepare_params`. -/
structure ParamsData where
  compact : Bool
  info_mask : Nat
  coalesce : Coalesce
  ring : RingParam
  pause : PauseParam
  channels : Channels
deriving DecidableEq

/-- The coalescing block of `prepare_params`: gather the category if
requested, clearing it from the mask when the get operation is missing
(`-EOPNOTSUPP`) or fails. -/
def params_prep_coalesce (oc : Option (Except Nat Coalesce)) (m : Nat) : Coalesce × Nat :=
  if m &&& ETHTOOL_IM_PARAMS_COALESCE ≠ 0 then
    match oc with
    | some (.ok c) => (c, m)
    | some (.error _) => ({}, clear32 m ETHTOOL_IM_PARAMS_COALESCE)
    | none => ({}, clear32 m ETHTOOL_IM_PARAMS_COALESCE)
  else ({}, m)

/-- The ring block of `prepare_params`. -/
def params_prep_ring (orr : Option RingParam) (m : Nat) : RingParam × Nat :=
  if m &&& ETHTOOL_IM_PARAMS_RING ≠ 0 then
    match orr with
    | some r => (r, m)
    | none => ({}, clear32 m ETHTOOL_IM_PARAMS_RING)
  else ({}, m)

/-- The pause block of `prepare_params`. -/
def params_prep_pause (op : Option PauseParam) (m : Nat) : PauseParam × Nat :=
  if m &&& ETHTOOL_IM_PARAMS_PAUSE ≠ 0 then
    match op with
    | some p => (p, m)
    | none => ({}, clear32 m ETHTOOL_IM_PARAMS_PAUSE)
  else ({}, m)

/-- The channels block of `prepare_params`. -/
def params_prep_channels (och : Option Channels) (m : Nat) : Channels × Nat :=
  if m &&& ETHTOOL_IM_PARAMS_CHANNELS ≠ 0 then
    match och with
    | some c => (c, m)
    | none => ({}, clear32 m ETHTOOL_IM_PARAMS_CHANNELS)
  else ({}, m)

/-- `prepare_params` of the four-category handler: each requested category
whose get operation is missing or fails is dropped from the achieved
mask; always succeeds. -/
def prepare_params (ops : ParamsOps) (req_mask : Nat) (compact : Bool) : ParamsData :=
  let s1 := params_prep_coalesce ops.coalesce req_mask
  let s2 := params_prep_ring ops.ring s1.2
  let s3 := params_prep_pause ops.pause s2.2
  let s4 := params_prep_channels ops.channels s3.2
  { compact := compact, info_mask := s4.2, coalesce := s1.1, ring := s2.1,
    pause := s3.1, channels := s4.1 }

def coalesce_size : Nat :=
  nla_total_size (20 * nla_total_size 4 + 2 * nla_total_size 1)

def ring_size : Nat := nla_total_size (8 * nla_total_size 4)

def pause_size : Nat := nla_total_size (3 * nla_total_size 1)

def channels_size : Nat := nla_total_size (8 * nla_total_size 4)

/-- `params_size` of the four-category handler. -/
def params_size (d : ParamsData) : Nat :=
  dev_ident_size +
  (if d.info_mask &&& ETHTOOL_IM_PARAMS_COALESCE ≠ 0 then coalesce_size else 0) +
  (if d.info_mask &&& ETHTOOL_IM_PARAMS_RING ≠ 0 then ring_size else 0) +
  (if d.info_mask &&& ETHTOOL_IM_PARAMS_PAUSE ≠ 0 then pause_size else 0) +
  (if d.info_mask &&& ETHTOOL_IM_PARAMS_CHANNELS ≠ 0 then channels_size else 0)

def fill_coalesce (c : Coalesce) : Attr :=
  .nest ETHTOOL_A_PARAMS_COALESCE [
    .leaf 1 (mkU32 c.rx_coalesce_usecs),
    .leaf 2 (mkU32 c.rx_max_coalesced_frames),
    .leaf 3 (mkU32 c.rx_coalesce_usecs_irq),
    .leaf 4 (mkU32 c.rx_max_coalesced_frames_irq),
    .leaf 5 (mkU32 c.rx_coalesce_usecs_low),
    .leaf 6 (mkU32 c.rx_max_coalesced_frames_low),
    .leaf 7 (mkU32 c.rx_coalesce_usecs_high),
    .leaf 8 (mkU32 c.rx_max_coalesced_frames_high),
    .leaf 9 (mkU32 c.tx_coalesce_usecs),
    .leaf 10 (mkU32 c.tx_max_coalesced_frames),
    .leaf 11 (mkU32 c.tx_coalesce_usecs_irq),
    .leaf 12 (mkU32 c.tx_max_coalesced_frames_irq),
    .leaf 13 (mkU32 c.tx_coalesce_usecs_low),
    .leaf 14 (mkU32 c.tx_max_coalesced_frames_low),
    .leaf 15 (mkU32 c.tx_coalesce_usecs_high),
    .leaf 16 (mkU32 c.tx_max_coalesced_frames_high),
    .leaf 17 (mkU32 c.pkt_rate_low),
    .leaf 18 (mkU32 c.pkt_rate_high),
    .leaf 19 [if c.use_adaptive_rx_coalesce ≠ 0 then 1 else 0],
    .leaf 20 [if c.use_adaptive_tx_coalesce ≠ 0 then 1 else 0],
    .leaf 21 (mkU32 c.rate_sample_interval),
    .leaf 22 (mkU32 c.stats_block_coalesce_usecs)]

def fill_ring (r : RingParam) : Attr :=
  .nest ETHTOOL_A_PARAMS_RING [
    .leaf 1 (mkU32 r.rx_max_pending),
    .leaf 2 (mkU32 r.rx_mini_max_pending),
    .leaf 3 (mkU32 r.rx_jumbo_max_pending),
    .leaf 4 (mkU32 r.tx_max_pending),
    .leaf 5 (mkU32 r.rx_pending),
    .leaf 6 (mkU32 r.rx_mini_pending),
    .leaf 7 (mkU32 r.rx_jumbo_pending),
    .leaf 8 (mkU32 r.tx_pending)]

def fill_pause (p : PauseParam) : Attr :=
  .nest ETHTOOL_A_PARAMS_PAUSE [
    .leaf 1 [if p.autoneg ≠ 0 then 1 else 0],
    .leaf 2 [if p.rx_pause ≠ 0 then 1 else 0],
    .leaf 3 [if p.tx_pause ≠ 0 then 1 else 0]]

def fill_channels (c : Channels) : Attr :=
  .nest ETHTOOL_A_PARAMS_CHANNELS [
    .leaf 1 (mkU32 c.max_rx),
    .leaf 2 (mkU32 c.max_tx),
    .leaf 3 (mkU32 c.max_other),
    .leaf 4 (mkU32 c.max_combined),
    .leaf 5 (mkU32 c.rx_count),
    .leaf 6 (mkU32 c.tx_count),
    .leaf 7 (mkU32 c.other_count),
    .leaf 8 (mkU32 c.combined_count)]

/-- `fill_params` of the four-category handler. -/
def fill_params (d : ParamsData) : List Attr :=
  (if d.info_mask &&& ETHTOOL_IM_PARAMS_COALESCE ≠ 0 then [fill_coalesce d.coalesce] else []) ++
  (if d.info_mask &&& ETHTOOL_IM_PARAMS_RING ≠ 0 then [fill_ring d.ring] else []) ++
  (if d.info_mask &&& ETHTOOL_IM_PARAMS_PAUSE ≠ 0 then [fill_pause d.pause] else []) ++
  (if d.info_mask &&& ETHTOOL_IM_PARAMS_CHANNELS ≠ 0 then [fill_channels d.channels] else [])

/-- The info-mask fixup in `parse_params` (identical in both versions of
the parameters handler). -/
def parse_params_req_mask (infomask : Option Nat) : Nat :=
  let m := match infomask with
    | some v => v
    | none => 0
  if m = 0 then ETHTOOL_IM_PARAMS_ALL else m

/-! ## SET-side update helpers

The helpers `ethnl_update_u32` / `ethnl_update_u8` / `ethnl_update_bool32`
are declared in `netlink.h`, which is not among the provided sources.
Modelled from the spec: an absent attribute leaves the in-memory copy
untouched; a present attribute overwrites the field and reports whether
the value changed (`bool32` first normalizes the u8 payload to 0/1). -/

def ethnl_update_u32 (v : Nat) (attr : Option Nat) : Nat × Bool :=
  match attr with
  | none => (v, false)
  | some x => (x, decide (v ≠ x))

def ethnl_update_u8 (v : Nat) (attr : Option Nat) : Nat × Bool :=
  match attr with
  | none => (v, false)
  | some x => (x, decide (v ≠ x))

def ethnl_update_bool32 (v : Nat) (attr : Option Nat) : Nat × Bool :=
  match attr with
  | none => (v, false)
  | some x => ((if x ≠ 0 then 1 else 0), decide (v ≠ (if x ≠ 0 then 1 else 0)))

/-! ## SET_PARAMS (`ethnl_set_params` of the four-category handler) -/

/-- Decoded content of a `ETHTOOL_A_PARAMS_COALESCE` nest. -/
structure CoalesceReq where
  rx_usecs : Option Nat := none
  rx_maxfrm : Option Nat := none
  rx_usecs_irq : Option Nat := none
  rx_maxfrm_irq : Option Nat := none
  rx_usecs_low : Option Nat := none
  rx_maxfrm_low : Option Nat := none
  rx_usecs_high : Option Nat := none
  rx_maxfrm_high : Option Nat := none
  tx_usecs : Option Nat := none
  tx_maxfrm : Option Nat := none
  tx_usecs_irq : Option Nat := none
  tx_maxfrm_irq : Option Nat := none
  tx_usecs_low : Option Nat := none
  tx_maxfrm_low : Option Nat := none
  tx_usecs_high : Option Nat := none
  tx_maxfrm_high : Option Nat := none
  pkt_rate_low : Option Nat := none
  pkt_rate_high : Option Nat := none
  rx_use_adaptive : Option Nat := none
  tx_use_adaptive : Option Nat := none
  rate_sample_interval : Option Nat := none
  stats_block_usecs : Option Nat := none
deriving DecidableEq

/-- Decoded content of a `ETHTOOL_A_PARAMS_RING` nest (only the four
writable fields; the `*_MAX_PENDING` attributes are rejected by policy). -/
structure RingReq where
  rx : Option Nat := none
  rx_mini : Option Nat := none
  rx_jumbo : Option Nat := none
  tx : Option Nat := none
deriving DecidableEq

structure PauseReq where
  autoneg : Option Nat := none
  rx : Option Nat := none
  tx : Option Nat := none
deriving DecidableEq

structure ChannelsReq where
  rx_count : Option Nat := none
  tx_count : Option Nat := none
  other_count : Option Nat := none
  combined_count : Option Nat := none
deriving DecidableEq

/-- A SET_PARAMS request: one optional nest per category. -/
structure ParamsSetReq where
  coalesce : Option CoalesceReq := none
  ring : Option RingReq := none
  pause : Option PauseReq := none
  channels : Option ChannelsReq := none
deriving DecidableEq

inductive RingField : Type where
  | rx | rx_mini | rx_jumbo | tx
deriving DecidableEq

inductive ChField : Type where
  | rx_count | tx_count | other_count | combined_count
deriving DecidableEq

/-- Outcome of one category updater: the returned value
(`.ok modified` or `.error errno`), the attribute blamed in the extack on
a limit check (if any), and the value passed to the driver set operation
if it was invoked. -/
structure UpdateRes (fld payload : Type) where
  ret : Except Nat Bool
  err_attr : Option fld
  set_call : Option payload
deriving DecidableEq

/-- `update_coalesce` of the four-category handler. -/
def update_coalesce (ops : ParamsOps) (req : Option CoalesceReq) : UpdateRes Unit Coalesce :=
  match req with
  | none => ⟨.ok false, none, none⟩
  | some r =>
    if ops.coalesce.isNone ∨ ¬ops.has_set_coalesce then ⟨.error EOPNOTSUPP, none, none⟩
    else match ops.coalesce with
      | none => ⟨.error EOPNOTSUPP, none, none⟩
      | some (.error e) => ⟨.error e, none, none⟩
      | some (.ok d0) =>
        let u1 := ethnl_update_u32 d0.rx_coalesce_usecs r.rx_usecs
        let u2 := ethnl_update_u32 d0.rx_max_coalesced_frames r.rx_maxfrm
        let u3 := ethnl_update_u32 d0.rx_coalesce_usecs_irq r.rx_usecs_irq
        let u4 := ethnl_update_u32 d0.rx_max_coalesced_frames_irq r.rx_maxfrm_irq
        let u5 := ethnl_update_u32 d0.rx_coalesce_usecs_low r.rx_usecs_low
        let u6 := ethnl_update_u32 d0.rx_max_coalesced_frames_low r.rx_maxfrm_low
        let u7 := ethnl_update_u32 d0.rx_coalesce_usecs_high r.rx_usecs_high
        let u8 := ethnl_update_u32 d0.rx_max_coalesced_frames_high r.rx_maxfrm_high
        let u9 := ethnl_update_u32 d0.tx_coalesce_usecs r.tx_usecs
        let u10 := ethnl_update_u32 d0.tx_max_coalesced_frames r.tx_maxfrm
        let u11 := ethnl_update_u32 d0.tx_coalesce_usecs_irq r.tx_usecs_irq
        let u12 := ethnl_update_u32 d0.tx_max_coalesced_frames_irq r.tx_maxfrm_irq
        let u13 := ethnl_update_u32 d0.tx_coalesce_usecs_low r.tx_usecs_low
        let u14 := ethnl_update_u32 d0.tx_max_coalesced_frames_low r.tx_maxfrm_low
        let u15 := ethnl_update_u32 d0.tx_coalesce_usecs_high r.tx_usecs_high
        let u16 := ethnl_update_u32 d0.tx_max_coalesced_frames_high r.tx_maxfrm_high
        let u17 := ethnl_update_u32 d0.pkt_rate_low r.pkt_rate_low
        let u18 := ethnl_update_u32 d0.pkt_rate_high r.pkt_rate_high
        let u19 := ethnl_update_bool32 d0.use_adaptive_rx_coalesce r.rx_use_adaptive
        let u20 := ethnl_update_bool32 d0.use_adaptive_tx_coalesce r.tx_use_adaptive
        let u21 := ethnl_update_u32 d0.rate_sample_interval r.rate_sample_interval
        let u22 := ethnl_update_u32 d0.stats_block_coalesce_usecs r.stats_block_usecs
        let d1 : Coalesce :=
          { rx_coalesce_usecs := u1.1, rx_max_coalesced_frames := u2.1,
            rx_coalesce_usecs_irq := u3.1, rx_max_coalesced_frames_irq := u4.1,
            rx_coalesce_usecs_low := u5.1, rx_max_coalesced_frames_low := u6.1,
            rx_coalesce_usecs_high := u7.1, rx_max_coalesced_frames_high := u8.1,
            tx_coalesce_usecs := u9.1, tx_max_coalesced_frames := u10.1,
            tx_coalesce_usecs_irq := u11.1, tx_max_coalesced_frames_irq := u12.1,
            tx_coalesce_usecs_low := u13.1, tx_max_coalesced_frames_low := u14.1,
            tx_coalesce_usecs_high := u15.1, tx_max_coalesced_frames_high := u16.1,
            pkt_rate_low := u17.1, pkt_rate_high := u18.1,
            use_adaptive_rx_coalesce := u19.1, use_adaptive_tx_coalesce := u20.1,
            rate_sample_interval := u21.1, stats_block_coalesce_usecs := u22.1 }
        let mod := u1.2 || u2.2 || u3.2 || u4.2 || u5.2 || u6.2 || u7.2 || u8.2 ||
          u9.2 || u10.2 || u11.2 || u12.2 || u13.2 || u14.2 || u15.2 || u16.2 ||
          u17.2 || u18.2 || u19.2 || u20.2 || u21.2 || u22.2
        if ¬mod then ⟨.ok false, none, none⟩
        else match ops.set_coalesce_res with
          | .ok _ => ⟨.ok true, none, some d1⟩
          | .error e => ⟨.error e, none, some d1⟩

/-- The chain of limit checks in `update_ring`: the blamed field is the
first one, in the order rx, rx-mini, rx-jumbo, tx, whose proposed value
exceeds its maximum. -/
def ringFirstExceed (d : RingParam) : Option RingField :=
  if d.rx_pending > d.rx_max_pending then some .rx
  else if d.rx_mini_pending > d.rx_mini_max_pending then some .rx_mini
  else if d.rx_jumbo_pending > d.rx_jumbo_max_pending then some .rx_jumbo
  else if d.tx_pending > d.tx_max_pending then some .tx
  else none

/-- The in-memory copy of the ring parameters after applying the
requested changes. -/
def ringApply (d0 : RingParam) (r : RingReq) : RingParam :=
  { d0 with
    rx_pending := (ethnl_update_u32 d0.rx_pending r.rx).1
    rx_mini_pending := (ethnl_update_u32 d0.rx_mini_pending r.rx_mini).1
    rx_jumbo_pending := (ethnl_update_u32 d0.rx_jumbo_pending r.rx_jumbo).1
    tx_pending := (ethnl_update_u32 d0.tx_pending r.tx).1 }

/-- `update_ring`: apply the requested changes to an in-memory copy, then
check each bounded field against its maximum. The blamed attribute is
`tb[first offending field]`, which is absent when that field was not in
the request — in that case the error branch is not taken. -/
def update_ring (ops : ParamsOps) (req : Option RingReq) : UpdateRes RingField RingParam :=
  match req with
  | none => ⟨.ok false, none, none⟩
  | some r =>
    if ops.ring.isNone ∨ ¬ops.has_set_ringparam then ⟨.error EOPNOTSUPP, none, none⟩
    else match ops.ring with
      | none => ⟨.error EOPNOTSUPP, none, none⟩
      | some d0 =>
        let u1 := ethnl_update_u32 d0.rx_pending r.rx
        let u2 := ethnl_update_u32 d0.rx_mini_pending r.rx_mini
        let u3 := ethnl_update_u32 d0.rx_jumbo_pending r.rx_jumbo
        let u4 := ethnl_update_u32 d0.tx_pending r.tx
        let d1 : RingParam := ringApply d0 r
        if ¬(u1.2 || u2.2 || u3.2 || u4.2) then ⟨.ok false, none, none⟩
        else
          let err_attr : Option RingField :=
            match ringFirstExceed d1 with
            | some .rx => if r.rx.isSome then some .rx else none
            | some .rx_mini => if r.rx_mini.isSome then some .rx_mini else none
            | some .rx_jumbo => if r.rx_jumbo.isSome then some .rx_jumbo else none
            | some .tx => if r.tx.isSome then some .tx else none
            | none => none
          if err_attr.isSome then ⟨.error EINVAL, err_attr, none⟩
          else match ops.set_ringparam_res with
            | .ok _ => ⟨.ok true, none, some d1⟩
            | .error e => ⟨.error e, none, some d1⟩

/-- `update_pause`. -/
def update_pause (ops : ParamsOps) (req : Option PauseReq) : UpdateRes Unit PauseParam :=
  match req with
  | none => ⟨.ok false, none, none⟩
  | some r =>
    if ops.pause.isNone ∨ ¬ops.has_set_pauseparam then ⟨.error EOPNOTSUPP, none, none⟩
    else match ops.pause with
      | none => ⟨.error EOPNOTSUPP, none, none⟩
      | some d0 =>
        let u1 := ethnl_update_u32 d0.autoneg r.autoneg
        let u2 := ethnl_update_u32 d0.rx_pause r.rx
        let u3 := ethnl_update_u32 d0.tx_pause r.tx
        let d1 : PauseParam := { autoneg := u1.1, rx_pause := u2.1, tx_pause := u3.1 }
        if ¬(u1.2 || u2.2 || u3.2) then ⟨.ok false, none, none⟩
        else match ops.set_pauseparam_res with
          | .ok _ => ⟨.ok true, none, some d1⟩
          | .error e => ⟨.error e, none, some d1⟩

/-- First channel count, in the order rx, tx, other, combined, whose
proposed value exceeds its maximum. -/
def chFirstExceed (c : Channels) : Option ChField :=
  if c.rx_count > c.max_rx then some .rx_count
  else if c.tx_count > c.max_tx then some .tx_count
  else if c.other_count > c.max_other then some .other_count
  else if c.combined_count > c.max_combined then some .combined_count
  else none

/-- `update_channels`. -/
def update_channels (ops : ParamsOps) (req : Option ChannelsReq) : UpdateRes ChField Channels :=
  match req with
  | none => ⟨.ok false, none, none⟩
  | some r =>
    if ops.channels.isNone ∨ ¬ops.has_set_channels then ⟨.error EOPNOTSUPP, none, none⟩
    else match ops.channels with
      | none => ⟨.error EOPNOTSUPP, none, none⟩
      | some d0 =>
        let u1 := ethnl_update_u32 d0.rx_count r.rx_count
        let u2 := ethnl_update_u32 d0.tx_count r.tx_count
        let u3 := ethnl_update_u32 d0.other_count r.other_count
        let u4 := ethnl_update_u32 d0.combined_count r.combined_count
        let d1 : Channels :=
          { d0 with
            rx_count := u1.1
            tx_count := u2.1
            other_count := u3.1
            combined_count := u4.1 }
        if ¬(u1.2 || u2.2 || u3.2 || u4.2) then ⟨.ok false, none, none⟩
        else
          let err_attr : Option ChField :=
            match chFirstExceed d1 with
            | some .rx_count => if r.rx_count.isSome then some .rx_count else none
            | some .tx_count => if r.tx_count.isSome then some .tx_count else none
            | some .other_count => if r.other_count.isSome then some .other_count else none
            | some .combined_count => if r.combined_count.isSome then some .combined_count else none
            | none => none
          if err_attr.isSome then ⟨.error EINVAL, err_attr, none⟩
          else match ops.set_channels_res with
            | .ok _ => ⟨.ok true, none, some d1⟩
            | .error e => ⟨.error e, none, some d1⟩

/-- One driver set call made while handling a SET_PARAMS request. -/
inductive Commit : Type where
  | coalesce (c : Coalesce)
  | ring (r : RingParam)
  | pause (p : PauseParam)
  | channels (c : Channels)
deriving DecidableEq

def commitsOfCoalesce (u : UpdateRes Unit Coalesce) : List Commit :=
  match u.set_call with
  | some c => [.coalesce c]
  | none => []

def commitsOfRing (u : UpdateRes RingField RingParam) : List Commit :=
  match u.set_call with
  | some r => [.ring r]
  | none => []

def commitsOfPause (u : UpdateRes Unit PauseParam) : List Commit :=
  match u.set_call with
  | some p => [.pause p]
  | none => []

def commitsOfChannels (u : UpdateRes ChField Channels) : List Commit :=
  match u.set_call with
  | some c => [.channels c]
  | none => []

/-- `ethnl_set_params` of the four-category handler: the categories are
processed in the fixed order coalesce, ring, pause, channels; the first
failing updater aborts the remaining ones. The result carries the return
value, the ordered trace of driver set calls, and the notification mask
accumulated from the categories that reported a modification. -/
def ethnl_set_params (ops : ParamsOps) (tb : ParamsSetReq) :
    Except Nat Unit × List Commit × Nat :=
  let rc := update_coalesce ops tb.coalesce
  let cs0 := commitsOfCoalesce rc
  match rc.ret with
  | .error e => (.error e, cs0, 0)
  | .ok mc =>
    let m1 := if mc then ETHTOOL_IM_PARAMS_COALESCE else 0
    let rr := update_ring ops tb.ring
    let cs1 := cs0 ++ commitsOfRing rr
    match rr.ret with
    | .error e => (.error e, cs1, m1)
    | .ok mr =>
      let m2 := m1 ||| (if mr then ETHTOOL_IM_PARAMS_RING else 0)
      let rp := update_pause ops tb.pause
      let cs2 := cs1 ++ commitsOfPause rp
      match rp.ret with
      | .error e => (.error e, cs2, m2)
      | .ok mp =>
        let m3 := m2 ||| (if mp then ETHTOOL_IM_PARAMS_PAUSE else 0)
        let rch := update_channels ops tb.channels
        let cs3 := cs2 ++ commitsOfChannels rch
        match rch.ret with
        | .error e => (.error e, cs3, m3)
        | .ok mch => (.ok (), cs3, m3 ||| (if mch then ETHTOOL_IM_PARAMS_CHANNELS else 0))

/-! ## SET_SETTINGS: `auto_link_modes` and `update_link_modes` -/

/-- Table entry for bit `i` (out-of-range bits behave as special modes,
which the loop never reaches since the table has
`__ETHTOOL_LINK_MODE_MASK_NBITS` entries). -/
def linkModeInfoAt (i : Nat) : LinkModeInfo :=
  link_mode_params.getD i ⟨SPEED_UNKNOWN, DUPLEX_UNKNOWN⟩

/-- `auto_link_modes`: recompute the advertised bitmap from the Link Mode
Table — bits whose entry carries `SPEED_UNKNOWN` are skipped (left at
their previous value), every other bit is set exactly when it is
supported and matches the requested speed (if `req_speed`) and duplex
(if `req_duplex`). Returns the new bitmap and whether it differs from
the old one. -/
def auto_link_modes (ks : KSettings) (req_speed req_duplex : Bool) : List Bool × Bool :=
  let adv := ks.link_modes.advertising
  let adv2 := List.ofFn (n := __ETHTOOL_LINK_MODE_MASK_NBITS) fun i =>
    let info := linkModeInfoAt i.val
    if info.speed = SPEED_UNKNOWN then adv.getD i.val false
    else
      ks.link_modes.supported.getD i.val false &&
      (!req_speed || info.speed == ks.base.speed) &&
      (!req_duplex || info.duplex == ks.base.duplex)
  let mod := !((List.range __ETHTOOL_LINK_MODE_MASK_NBITS).all
    (fun i => adv.getD i false == adv2.getD i false))
  (adv2, mod)

/-- Decoded content of a `ETHTOOL_A_SETTINGS_LINK_MODES` nest. The `ours`
bitset is modelled from the spec (the bitset decoder is not among the
provided sources): per bit, `none` leaves the advertised bit untouched
and `some b` sets it to `b` (the decoded value plus
which-bits-were-mentioned mask of the spec). -/
structure LinkModesReq where
  autoneg : Option Nat := none
  ours : Option (List (Option Bool)) := none
  speed : Option Nat := none
  duplex : Option Nat := none
deriving DecidableEq

/-- Modelled from the spec: `ethnl_update_bitset` applies the decoded
value under the modification mask and reports whether any bit changed. -/
def ethnl_update_bitset (adv : List Bool) (upd : Option (List (Option Bool))) :
    List Bool × Bool :=
  match upd with
  | none => (adv, false)
  | some u =>
    let adv2 := List.ofFn (n := __ETHTOOL_LINK_MODE_MASK_NBITS) fun i =>
      match u.getD i.val none with
      | some b => b
      | none => adv.getD i.val false
    let mod := !((List.range __ETHTOOL_LINK_MODE_MASK_NBITS).all
      (fun i => adv.getD i false == adv2.getD i false))
    (adv2, mod)

/-- `update_link_modes`: updates autoneg, the advertised bitset, speed and
duplex from the request, then — when no explicit bitset was given,
autonegotiation is (still) on and a speed or duplex was requested —
recomputes the advertised bitset through `auto_link_modes`. -/
def update_link_modes (req : LinkModesReq) (ks : KSettings) : KSettings × Bool :=
  let req_speed := req.speed.isSome
  let req_duplex := req.duplex.isSome
  let u1 := ethnl_update_u8 ks.base.autoneg req.autoneg
  let u2 := ethnl_update_bitset ks.link_modes.advertising req.ours
  let u3 := ethnl_update_u32 ks.base.speed req.speed
  let u4 := ethnl_update_u8 ks.base.duplex req.duplex
  let ks1 : KSettings :=
    { base :=
        { ks.base with
          autoneg := u1.1
          speed := u3.1
          duplex := u4.1 }
      link_modes :=
        { ks.link_modes with
          advertising := u2.1 } }
  let mod := u1.2 || u2.2 || u3.2 || u4.2
  if req.ours.isNone ∧ ks1.base.autoneg ≠ 0 ∧ (req_speed ∨ req_duplex) then
    let a := auto_link_modes ks1 req_speed req_duplex
    ({ ks1 with link_modes := { ks1.link_modes with advertising := a.1 } }, mod || a.2)
  else (ks1, mod)

/-! ## Device resolver (`ethnl_dev_get` in netlink.c) -/

/-- A registered network device as the resolver sees it. -/
structure NDev where
  ifindex : Nat
  name : String
  present : Bool
deriving DecidableEq

/-- Decoded content of the device identification nest. -/
structure DevIdent where
  index : Option Nat := none
  name : Option String := none
deriving DecidableEq

inductive DevErr : Type where
  | einval (msg : String)
  | enodev (msg : String)
deriving DecidableEq

def dev_get_by_index (net : List NDev) (i : Nat) : Option NDev :=
  net.find? (fun d => d.ifindex == i)

def dev_get_by_name (net : List NDev) (nm : String) : Option NDev :=
  net.find? (fun d => d.name == nm)

/-- `ethnl_dev_get`: resolve a device from the identification nest.
Returns the result together with the number of device references taken
(`dev_get_by_index`/`dev_get_by_name`) and released (`dev_put`) during
the call; on success the reference surplus is owned by the caller.
Names are compared for equality (the `strncmp` bound `IFNAMSIZ` is
enforced by the attribute policy on both sides). -/
def ethnl_dev_get (net : List NDev) (nest : Option DevIdent) :
    Except DevErr NDev × Nat × Nat :=
  match nest with
  | none => (.error (.einval "device identification missing"), 0, 0)
  | some tb =>
    match tb.index with
    | some idx =>
      match dev_get_by_index net idx with
      | none => (.error (.enodev "no device matches ifindex"), 0, 0)
      | some dev =>
        match tb.name with
        | some nm =>
          if dev.name ≠ nm then
            (.error (.enodev "ifindex and name do not match"), 1, 1)
          else (.ok dev, 1, 0)
        | none => (.ok dev, 1, 0)
    | none =>
      match tb.name with
      | some nm =>
        match dev_get_by_name net nm with
        | none => (.error (.enodev "no device matches name"), 0, 0)
        | some dev =>
          if ¬dev.present then (.error (.enodev "device not present"), 1, 1)
          else (.ok dev, 1, 0)
      | none => (.error (.einval "neither ifindex nor name specified"), 0, 0)

/-! ## Dump iteration (`ethnl_get_dumpit` in netlink.c)

A device is modelled by an identity plus the outcome of
`ethnl_get_dump_one` for it: `prep = none` — the reply unit encodes
successfully; `prep = some e` — it fails with `-e` (in particular
`-EOPNOTSUPP` from `prepare_data`). The message buffer is modelled by a
capacity: each successfully encoded device consumes one unit, and a
device reached with no capacity left fails with `-EMSGSIZE`, exactly the
failure `fill_reply` reports on a full skb. -/

structure DDev where
  id : Nat
  prep : Option Nat := none
deriving DecidableEq

/-- Result of scanning one hash bucket: the devices whose reply units
remain in the buffer, the final value of `idx`, the remaining capacity,
and the error that stopped the scan (if any). -/
structure BucketRun where
  encoded : List DDev
  idx : Nat
  capLeft : Nat
  stop : Option Nat
deriving DecidableEq

/-- The inner `hlist_for_each_entry` loop of `ethnl_get_dumpit` over one
bucket: skip devices with `idx < s_idx`, skip (and consume) devices whose
preparation reports `-EOPNOTSUPP`, stop at the first other failure
without incrementing `idx`. -/
def dumpBucket : List DDev → Nat → Nat → Nat → BucketRun
  | [], _, idx, cap => ⟨[], idx, cap, none⟩
  | d :: rest, s, idx, cap =>
    if idx < s then dumpBucket rest s (idx + 1) cap
    else match d.prep with
      | some e =>
        if e = EOPNOTSUPP then dumpBucket rest s (idx + 1) cap
        else ⟨[], idx, cap, some e⟩
      | none =>
        if cap = 0 then ⟨[], idx, cap, some EMSGSIZE⟩
        else
          let r := dumpBucket rest s (idx + 1) (cap - 1)
          ⟨d :: r.encoded, r.idx, r.capLeft, r.stop⟩

/-- Result of the outer bucket loop: encoded devices, final `h` and
`idx` (the cursor stored into `cb->args`), and the stopping error. -/
structure BucketsRun where
  encoded : List DDev
  h : Nat
  idx : Nat
  stop : Option Nat
deriving DecidableEq

/-- The outer `for (h = s_h; ...)` loop: the skip count `s_idx` applies
only to the first bucket scanned; `idx` keeps its last value when the
loop runs off the end of the table. -/
def dumpBuckets : List (List DDev) → Nat → Nat → Nat → Nat → BucketsRun
  | [], h, _, _, idx => ⟨[], h, idx, none⟩
  | b :: rest, h, s, cap, _ =>
    let r := dumpBucket b s 0 cap
    match r.stop with
    | some e => ⟨r.encoded, h, r.idx, some e⟩
    | none =>
      let r2 := dumpBuckets rest (h + 1) 0 r.capLeft r.idx
      ⟨r.encoded ++ r2.encoded, r2.h, r2.idx, r2.stop⟩

/-- One invocation of `ethnl_get_dumpit`: result `.ok n` is the positive
`skb->len` proxy (number of encoded reply units; `0` ends the dump), and
a failure with nothing encoded yet surfaces the error itself. The
`h`/`idx` fields are the cursor stored for the next invocation. -/
structure DumpitRun where
  encoded : List DDev
  h : Nat
  idx : Nat
  res : Except Nat Nat
deriving DecidableEq

def ethnl_get_dumpit (buckets : List (List DDev)) (s_h s_idx cap : Nat) : DumpitRun :=
  let r := dumpBuckets (buckets.drop s_h) s_h s_idx cap 0
  match r.stop with
  | none => ⟨r.encoded, r.h, r.idx, .ok r.encoded.length⟩
  | some e =>
    if r.encoded.length ≠ 0 then ⟨r.encoded, r.h, r.idx, .ok r.encoded.length⟩
    else ⟨r.encoded, r.h, r.idx, .error e⟩

/-- A whole dump session: invoke `ethnl_get_dumpit` with the cursor left
by the previous invocation, with a fresh buffer capacity each time, until
an invocation encodes nothing (netlink ends the dump on return value 0)
or fails. `none` means the session aborted with an error or ran out of
scheduled invocations. -/
def dumpSession (buckets : List (List DDev)) : Nat × Nat → List Nat → Option (List DDev)
  | _, [] => none
  | (s_h, s_idx), cap :: caps =>
    let r := ethnl_get_dumpit buckets s_h s_idx cap
    match r.res with
    | .error _ => none
    | .ok ret =>
      if ret = 0 then some []
      else
        match dumpSession buckets (r.h, r.idx) caps with
        | none => none
        | some rest => some (r.encoded ++ rest)

/-! ## Helper lemmas on 32-bit mask arithmetic -/

theorem clear32_testBit (m bits i : Nat) (hbits : bits < 2 ^ 32) :
    (clear32 m bits).testBit i = (m.testBit i && (decide (i < 32) && !bits.testBit i)) := by
  unfold clear32
  rw [Nat.testBit_and, Nat.testBit_xor, Nat.testBit_two_pow_sub_one]
  by_cases hi : i < 32
  · simp [hi]
  · have hbi : bits.testBit i = false :=
      Nat.testBit_lt_two_pow (lt_of_lt_of_le hbits (Nat.pow_le_pow_right (by omega) (by omega)))
    simp [hi, hbi]

/-- Clearing `bits` kills every sub-mask of `bits`. -/
theorem clear32_and_sub (m bits sub : Nat) (hbits : bits < 2 ^ 32)
    (hsub : sub &&& bits = sub) : clear32 m bits &&& sub = 0 := by
  apply Nat.eq_of_testBit_eq
  intro i
  rw [Nat.testBit_and, clear32_testBit m bits i hbits, Nat.zero_testBit]
  by_cases hs : sub.testBit i
  · have : (sub &&& bits).testBit i = sub.testBit i := by rw [hsub]
    rw [Nat.testBit_and] at this
    simp [hs] at this
    simp [hs, this]
  · simp [hs]

/-- Clearing `bits` leaves a disjoint sub-mask selection unchanged. -/
theorem clear32_and_disjoint (m bits sub : Nat) (hbits : bits < 2 ^ 32)
    (hsublt : sub < 2 ^ 32) (hdis : sub &&& bits = 0) :
    clear32 m bits &&& sub = m &&& sub := by
  apply Nat.eq_of_testBit_eq
  intro i
  rw [Nat.testBit_and, Nat.testBit_and, clear32_testBit m bits i hbits]
  by_cases hs : sub.testBit i
  · have hd : (sub &&& bits).testBit i = false := by rw [hdis]; exact Nat.zero_testBit i
    rw [Nat.testBit_and] at hd
    simp [hs] at hd
    have hi : i < 32 := by
      by_contra hi
      have : sub.testBit i = false :=
        Nat.testBit_lt_two_pow (lt_of_lt_of_le hsublt (Nat.pow_le_pow_right (by omega) (by omega)))
      simp [this] at hs
    simp [hs, hd, hi]
  · simp [hs]

/-! ## C10: absent or zero info mask requests all categories -/

/-- C10: for both GET commands, a request whose info-mask attribute is
absent or carries the value zero is parsed with the requested mask equal
to the full set of categories, so it behaves exactly like a request for
all categories. -/
theorem parse_req_mask_defaults_to_all :
    parse_settings_req_mask none = ETHTOOL_IM_SETTINGS_ALL ∧
    parse_settings_req_mask (some 0) = ETHTOOL_IM_SETTINGS_ALL ∧
    parse_params_req_mask none = ETHTOOL_IM_PARAMS_ALL ∧
    parse_params_req_mask (some 0) = ETHTOOL_IM_PARAMS_ALL ∧
    ETHTOOL_IM_SETTINGS_ALL =
      (ETHTOOL_IM_SETTINGS_LINKINFO ||| ETHTOOL_IM_SETTINGS_LINKMODES |||
       ETHTOOL_IM_SETTINGS_LINKSTATE ||| ETHTOOL_IM_SETTINGS_WOL) ∧
    ETHTOOL_IM_PARAMS_ALL =
      (ETHTOOL_IM_PARAMS_COALESCE ||| ETHTOOL_IM_PARAMS_RING |||
       ETHTOOL_IM_PARAMS_PAUSE ||| ETHTOOL_IM_PARAMS_CHANNELS) := by
  refine ⟨rfl, rfl, rfl, rfl, rfl, rfl⟩

/-! ## C9: index+name conflict releases the reference -/

/-- C9: whenever the identification nest carries both an index and a name,
the index resolves, and the resolved device's current name differs from
the supplied one, resolution fails with the identification-conflict error
and the reference taken on the indexed device is released (one get, one
put — the reference count is back at its pre-call value). -/
theorem dev_get_index_name_conflict (net : List NDev) (idx : Nat) (nm : String) (dev : NDev)
    (hfind : dev_get_by_index net idx = some dev) (hne : dev.name ≠ nm) :
    ethnl_dev_get net (some { index := some idx, name := some nm }) =
      (.error (.enodev "ifindex and name do not match"), 1, 1) := by
  simp [ethnl_dev_get, hfind, hne]

/-- Witness for C9. -/
theorem dev_get_index_name_conflict_witness :
    ethnl_dev_get [⟨1, "eth0", true⟩] (some { index := some 1, name := some "eth1" }) =
      (.error (.enodev "ifindex and name do not match"), 1, 1) :=
  dev_get_index_name_conflict [⟨1, "eth0", true⟩] 1 "eth1" ⟨1, "eth0", true⟩
    (by decide) (by decide)

/-! ## C4: the presence check only guards the name-only path -/

/-- C4 counterexample: a device resolved by index is returned successfully
even though it is not operationally present — the claim that every
successful resolution verifies presence (and fails otherwise) is false. -/
theorem dev_get_by_index_skips_presence_check :
    ethnl_dev_get [⟨1, "eth0", false⟩] (some { index := some 1 }) =
      (.ok ⟨1, "eth0", false⟩, 1, 0) := by decide

/-- C4 as amended: only name-only resolution verifies that the device is
operationally present — a non-present device makes it fail with the
device-not-present error after releasing the reference, and a present one
is returned with the caller owning one reference. Resolution by index
(with or without a matching name) returns the device without consulting
the presence flag. -/
theorem dev_get_presence_check (net : List NDev) :
    (∀ nm dev, dev_get_by_name net nm = some dev → dev.present = false →
      ethnl_dev_get net (some { index := none, name := some nm }) =
        (.error (.enodev "device not present"), 1, 1)) ∧
    (∀ nm dev, dev_get_by_name net nm = some dev → dev.present = true →
      ethnl_dev_get net (some { index := none, name := some nm }) = (.ok dev, 1, 0)) ∧
    (∀ idx dev, dev_get_by_index net idx = some dev →
      ethnl_dev_get net (some { index := some idx, name := none }) = (.ok dev, 1, 0)) ∧
    (∀ idx dev, dev_get_by_index net idx = some dev → dev.name = "eth0" →
      ethnl_dev_get net (some { index := some idx, name := some "eth0" }) =
        (.ok dev, 1, 0)) := by
  refine ⟨?_, ?_, ?_, ?_⟩
  · intro nm dev hfind hpres
    simp [ethnl_dev_get, hfind, hpres]
  · intro nm dev hfind hpres
    simp [ethnl_dev_get, hfind, hpres]
  · intro idx dev hfind
    simp [ethnl_dev_get, hfind]
  · intro idx dev hfind hnm
    simp [ethnl_dev_get, hfind, hnm]

/-- Witness for C4 as amended. -/
theorem dev_get_presence_check_witness :
    ethnl_dev_get [⟨1, "eth0", false⟩] (some { index := none, name := some "eth0" }) =
      (.error (.enodev "device not present"), 1, 1) :=
  (dev_get_presence_check [⟨1, "eth0", false⟩]).1 "eth0" ⟨1, "eth0", false⟩
    (by decide) (by decide)

/-! ## C5: ring-limit validation -/

/-- C5 counterexample: the device reports a current `rx_pending` (5000)
above its own maximum (4096); a SET that re-proposes exactly that value
has a proposed field exceeding its maximum, yet `update_ring` returns
success without naming any field — there is no modification, so the limit
checks are never reached. -/
theorem update_ring_over_limit_without_error :
    update_ring
      { ring := some { rx_max_pending := 4096, rx_pending := 5000 }
        has_set_ringparam := true }
      (some { rx := some 5000 }) = ⟨.ok false, none, none⟩ ∧
    5000 > 4096 := by decide

/-- C5 as amended: provided the device-reported current ring parameters
are within their own maxima, a SET whose proposed values exceed some
maximum fails with `-EINVAL` blaming the first offending field in the
order rx, rx-mini, rx-jumbo, tx, and the driver `set_ringparam` operation
is never invoked (so no device field changes). -/
theorem update_ring_limit_check (ops : ParamsOps) (d0 : RingParam) (r : RingReq) (f : RingField)
    (hget : ops.ring = some d0) (hset : ops.has_set_ringparam = true)
    (hc1 : d0.rx_pending ≤ d0.rx_max_pending)
    (hc2 : d0.rx_mini_pending ≤ d0.rx_mini_max_pending)
    (hc3 : d0.rx_jumbo_pending ≤ d0.rx_jumbo_max_pending)
    (hc4 : d0.tx_pending ≤ d0.tx_max_pending)
    (hex : ringFirstExceed (ringApply d0 r) = some f) :
    update_ring ops (some r) = ⟨.error EINVAL, some f, none⟩ := by
  have hmax1 : (ringApply d0 r).rx_max_pending = d0.rx_max_pending := rfl
  have hmax2 : (ringApply d0 r).rx_mini_max_pending = d0.rx_mini_max_pending := rfl
  have hmax3 : (ringApply d0 r).rx_jumbo_max_pending = d0.rx_jumbo_max_pending := rfl
  have hmax4 : (ringApply d0 r).tx_max_pending = d0.tx_max_pending := rfl
  -- the first offending field was necessarily supplied and modified
  have hfield : ∀ g : RingField, ringFirstExceed (ringApply d0 r) = some g →
      match g with
      | .rx => (ethnl_update_u32 d0.rx_pending r.rx).2 = true ∧ r.rx.isSome = true
      | .rx_mini => (ethnl_update_u32 d0.rx_mini_pending r.rx_mini).2 = true ∧
          r.rx_mini.isSome = true
      | .rx_jumbo => (ethnl_update_u32 d0.rx_jumbo_pending r.rx_jumbo).2 = true ∧
          r.rx_jumbo.isSome = true
      | .tx => (ethnl_update_u32 d0.tx_pending r.tx).2 = true ∧ r.tx.isSome = true := by
    intro g hg
    unfold ringFirstExceed at hg
    split_ifs at hg with h1 h2 h3 h4 <;> injection hg with hg <;> subst hg
    · have hchanged : (ringApply d0 r).rx_pending ≠ d0.rx_pending := by omega
      cases hrx : r.rx with
      | none =>
        exfalso
        apply hchanged
        show (ethnl_update_u32 d0.rx_pending r.rx).1 = d0.rx_pending
        rw [hrx]
        rfl
      | some v =>
        constructor
        · have : (ringApply d0 r).rx_pending = v := by
            show (ethnl_update_u32 d0.rx_pending r.rx).1 = v
            rw [hrx]; rfl
          simp [ethnl_update_u32, hrx]
          omega
        · simp [hrx]
    · have hchanged : (ringApply d0 r).rx_mini_pending ≠ d0.rx_mini_pending := by omega
      cases hrx : r.rx_mini with
      | none =>
        exfalso
        apply hchanged
        show (ethnl_update_u32 d0.rx_mini_pending r.rx_mini).1 = d0.rx_mini_pending
        rw [hrx]
        rfl
      | some v =>
        constructor
        · have : (ringApply d0 r).rx_mini_pending = v := by
            show (ethnl_update_u32 d0.rx_mini_pending r.rx_mini).1 = v
            rw [hrx]; rfl
          simp [ethnl_update_u32, hrx]
          omega
        · simp [hrx]
    · have hchanged : (ringApply d0 r).rx_jumbo_pending ≠ d0.rx_jumbo_pending := by omega
      cases hrx : r.rx_jumbo with
      | none =>
        exfalso
        apply hchanged
        show (ethnl_update_u32 d0.rx_jumbo_pending r.rx_jumbo).1 = d0.rx_jumbo_pending
        rw [hrx]
        rfl
      | some v =>
        constructor
        · have : (ringApply d0 r).rx_jumbo_pending = v := by
            show (ethnl_update_u32 d0.rx_jumbo_pending r.rx_jumbo).1 = v
            rw [hrx]; rfl
          simp [ethnl_update_u32, hrx]
          omega
        · simp [hrx]
    · have hchanged : (ringApply d0 r).tx_pending ≠ d0.tx_pending := by omega
      cases hrx : r.tx with
      | none =>
        exfalso
        apply hchanged
        show (ethnl_update_u32 d0.tx_pending r.tx).1 = d0.tx_pending
        rw [hrx]
        rfl
      | some v =>
        constructor
        · have : (ringApply d0 r).tx_pending = v := by
            show (ethnl_update_u32 d0.tx_pending r.tx).1 = v
            rw [hrx]; rfl
          simp [ethnl_update_u32, hrx]
          omega
        · simp [hrx]
  have hmod : ((ethnl_update_u32 d0.rx_pending r.rx).2 ||
      (ethnl_update_u32 d0.rx_mini_pending r.rx_mini).2 ||
      (ethnl_update_u32 d0.rx_jumbo_pending r.rx_jumbo).2 ||
      (ethnl_update_u32 d0.tx_pending r.tx).2) = true := by
    have := hfield f hex
    cases f <;> simp_all
  have herr : (match ringFirstExceed (ringApply d0 r) with
      | some RingField.rx => if r.rx.isSome then some RingField.rx else none
      | some RingField.rx_mini => if r.rx_mini.isSome then some RingField.rx_mini else none
      | some RingField.rx_jumbo => if r.rx_jumbo.isSome then some RingField.rx_jumbo else none
      | some RingField.tx => if r.tx.isSome then some RingField.tx else none
      | none => none) = some f := by
    have := hfield f hex
    rw [hex]
    cases f <;> simp_all
  simp only [update_ring, hget, hset]
  simp only [Option.isNone_some, Bool.false_eq_true, not_true_eq_false, or_self, if_false,
    Bool.not_eq_true]
  rw [hmod]
  simp only [Bool.true_eq_false, if_false, herr]
  simp

/-- Witness for C5 as amended. -/
theorem update_ring_limit_check_witness :
    update_ring
      { ring := some { rx_max_pending := 4096, tx_max_pending := 1024 }
        has_set_ringparam := true }
      (some { rx := some 5000, tx := some 2000 }) =
      ⟨.error EINVAL, some .rx, none⟩ :=
  update_ring_limit_check
    { ring := some { rx_max_pending := 4096, tx_max_pending := 1024 }
      has_set_ringparam := true }
    { rx_max_pending := 4096, tx_max_pending := 1024 }
    { rx := some 5000, tx := some 2000 } .rx
    rfl rfl (by decide) (by decide) (by decide) (by decide) (by decide)

/-! ## C7: unsupported category in a multi-category SET_PARAMS -/

/-- The four SET_PARAMS categories in processing order. -/
inductive PCat : Type where
  | coalesce | ring | pause | channels
deriving DecidableEq

def catIdx : PCat → Nat
  | .coalesce => 0
  | .ring => 1
  | .pause => 2
  | .channels => 3

def catPresent (tb : ParamsSetReq) : PCat → Bool
  | .coalesce => tb.coalesce.isSome
  | .ring => tb.ring.isSome
  | .pause => tb.pause.isSome
  | .channels => tb.channels.isSome

/-- The capability check of each category updater: both the get and the
set operation must be present. -/
def catSupported (ops : ParamsOps) : PCat → Bool
  | .coalesce => ops.coalesce.isSome && ops.has_set_coalesce
  | .ring => ops.ring.isSome && ops.has_set_ringparam
  | .pause => ops.pause.isSome && ops.has_set_pauseparam
  | .channels => ops.channels.isSome && ops.has_set_channels

def catRet (ops : ParamsOps) (tb : ParamsSetReq) : PCat → Except Nat Bool
  | .coalesce => (update_coalesce ops tb.coalesce).ret
  | .ring => (update_ring ops tb.ring).ret
  | .pause => (update_pause ops tb.pause).ret
  | .channels => (update_channels ops tb.channels).ret

def commitIdx : Commit → Nat
  | .coalesce _ => 0
  | .ring _ => 1
  | .pause _ => 2
  | .channels _ => 3

theorem update_coalesce_unsupported (ops : ParamsOps) (r : CoalesceReq)
    (h : (ops.coalesce.isSome && ops.has_set_coalesce) = false) :
    update_coalesce ops (some r) = ⟨.error EOPNOTSUPP, none, none⟩ := by
  cases hc : ops.coalesce <;> simp [hc] at h ⊢ <;> simp [update_coalesce, hc, h]

theorem update_ring_unsupported (ops : ParamsOps) (r : RingReq)
    (h : (ops.ring.isSome && ops.has_set_ringparam) = false) :
    update_ring ops (some r) = ⟨.error EOPNOTSUPP, none, none⟩ := by
  cases hc : ops.ring <;> simp [hc] at h ⊢ <;> simp [update_ring, hc, h]

theorem update_pause_unsupported (ops : ParamsOps) (r : PauseReq)
    (h : (ops.pause.isSome && ops.has_set_pauseparam) = false) :
    update_pause ops (some r) = ⟨.error EOPNOTSUPP, none, none⟩ := by
  cases hc : ops.pause <;> simp [hc] at h ⊢ <;> simp [update_pause, hc, h]

theorem update_channels_unsupported (ops : ParamsOps) (r : ChannelsReq)
    (h : (ops.channels.isSome && ops.has_set_channels) = false) :
    update_channels ops (some r) = ⟨.error EOPNOTSUPP, none, none⟩ := by
  cases hc : ops.channels <;> simp [hc] at h ⊢ <;> simp [update_channels, hc, h]

theorem commitsOfCoalesce_idx (u : UpdateRes Unit Coalesce) :
    ∀ cm ∈ commitsOfCoalesce u, commitIdx cm = 0 := by
  cases h : u.set_call <;> simp [commitsOfCoalesce, h, commitIdx]

theorem commitsOfRing_idx (u : UpdateRes RingField RingParam) :
    ∀ cm ∈ commitsOfRing u, commitIdx cm = 1 := by
  cases h : u.set_call <;> simp [commitsOfRing, h, commitIdx]

theorem commitsOfPause_idx (u : UpdateRes Unit PauseParam) :
    ∀ cm ∈ commitsOfPause u, commitIdx cm = 2 := by
  cases h : u.set_call <;> simp [commitsOfPause, h, commitIdx]

/-- C7 counterexample: a request carrying a supported, modified coalescing
nest together with a ring nest the device lacks the operations for does
fail `-EOPNOTSUPP` — but only after the coalescing category has already
been committed to the device, so the failure is neither before any other
commit nor free of applied categories. -/
theorem set_params_commits_before_unsupported :
    (ethnl_set_params { coalesce := some (.ok {}), has_set_coalesce := true }
        { coalesce := some { rx_usecs := some 1 }, ring := some {} }).1 =
      .error EOPNOTSUPP ∧
    (ethnl_set_params { coalesce := some (.ok {}), has_set_coalesce := true }
        { coalesce := some { rx_usecs := some 1 }, ring := some {} }).2.1 =
      [.coalesce { rx_coalesce_usecs := 1 }] := by decide

/-- C7 as amended: a present category whose get or set capability is
missing makes the whole request fail `-EOPNOTSUPP`, with that category and
every later one left uncommitted; categories processed earlier in the
fixed order coalesce, ring, pause, channels may however already have been
committed (they are not rolled back). -/
theorem set_params_unsupported_category (ops : ParamsOps) (tb : ParamsSetReq) (c : PCat)
    (hpres : catPresent tb c = true)
    (hunsupp : catSupported ops c = false)
    (hearlier : ∀ c2 e, catIdx c2 < catIdx c → catRet ops tb c2 ≠ .error e) :
    (ethnl_set_params ops tb).1 = .error EOPNOTSUPP ∧
    ∀ cm ∈ (ethnl_set_params ops tb).2.1, commitIdx cm < catIdx c := by
  cases c with
  | coalesce =>
    obtain ⟨r, hr⟩ := Option.isSome_iff_exists.mp hpres
    have hu := update_coalesce_unsupported ops r hunsupp
    rw [← hr] at hu
    simp [ethnl_set_params, hu, commitsOfCoalesce]
  | ring =>
    obtain ⟨r, hr⟩ := Option.isSome_iff_exists.mp hpres
    have hu := update_ring_unsupported ops r hunsupp
    rw [← hr] at hu
    cases hret : (update_coalesce ops tb.coalesce).ret with
    | error e => exact absurd hret (by have := hearlier .coalesce e (by decide); simpa [catRet])
    | ok mc =>
      constructor
      · simp [ethnl_set_params, hu, hret, commitsOfRing]
      · intro cm hcm
        simp [ethnl_set_params, hu, hret, commitsOfRing] at hcm
        have := commitsOfCoalesce_idx (update_coalesce ops tb.coalesce) cm hcm
        simp [catIdx]
        omega
  | pause =>
    obtain ⟨r, hr⟩ := Option.isSome_iff_exists.mp hpres
    have hu := update_pause_unsupported ops r hunsupp
    rw [← hr] at hu
    cases hret : (update_coalesce ops tb.coalesce).ret with
    | error e => exact absurd hret (by have := hearlier .coalesce e (by decide); simpa [catRet])
    | ok mc =>
      cases hret2 : (update_ring ops tb.ring).ret with
      | error e => exact absurd hret2 (by have := hearlier .ring e (by decide); simpa [catRet])
      | ok mr =>
        constructor
        · simp [ethnl_set_params, hu, hret, hret2, commitsOfPause]
        · intro cm hcm
          simp [ethnl_set_params, hu, hret, hret2, commitsOfPause] at hcm
          simp [catIdx]
          rcases hcm with h | h
          · have := commitsOfCoalesce_idx (update_coalesce ops tb.coalesce) cm h
            omega
          · have := commitsOfRing_idx (update_ring ops tb.ring) cm h
            omega
  | channels =>
    obtain ⟨r, hr⟩ := Option.isSome_iff_exists.mp hpres
    have hu := update_channels_unsupported ops r hunsupp
    rw [← hr] at hu
    cases hret : (update_coalesce ops tb.coalesce).ret with
    | error e => exact absurd hret (by have := hearlier .coalesce e (by decide); simpa [catRet])
    | ok mc =>
      cases hret2 : (update_ring ops tb.ring).ret with
      | error e => exact absurd hret2 (by have := hearlier .ring e (by decide); simpa [catRet])
      | ok mr =>
        cases hret3 : (update_pause ops tb.pause).ret with
        | error e => exact absurd hret3 (by have := hearlier .pause e (by decide); simpa [catRet])
        | ok mp =>
          constructor
          · simp [ethnl_set_params, hu, hret, hret2, hret3, commitsOfChannels]
          · intro cm hcm
            simp [ethnl_set_params, hu, hret, hret2, hret3, commitsOfChannels] at hcm
            simp [catIdx]
            rcases hcm with h | h | h
            · have := commitsOfCoalesce_idx (update_coalesce ops tb.coalesce) cm h
              omega
            · have := commitsOfRing_idx (update_ring ops tb.ring) cm h
              omega
            · have := commitsOfPause_idx (update_pause ops tb.pause) cm h
              omega

/-- Witness for C7 as amended. -/
theorem set_params_unsupported_category_witness :
    (ethnl_set_params {} { ring := some {} }).1 = .error EOPNOTSUPP ∧
    ∀ cm ∈ (ethnl_set_params {} { ring := some {} }).2.1, commitIdx cm < catIdx .ring :=
  set_params_unsupported_category {} { ring := some {} } .ring
    (by decide) (by decide)
    (fun c2 e hlt => by
      cases c2 with
      | coalesce => simp [catRet, update_coalesce]
      | ring => simp [catIdx] at hlt
      | pause => simp [catIdx] at hlt
      | channels => simp [catIdx] at hlt)

/-! ## C6: automatic advertised-modes derivation -/

/-- Bitmap with bits 3 (100baseT/Full), 5 (1000baseT/Full) and 6 (Autoneg)
set. -/
def c6Bitmap : List Bool :=
  List.ofFn (n := __ETHTOOL_LINK_MODE_MASK_NBITS)
    (fun i => i.val == 3 || i.val == 5 || i.val == 6)

/-- A device whose supported and advertised sets are 100baseT/Full,
1000baseT/Full and Autoneg, with autonegotiation on. -/
def c6KSettings : KSettings :=
  { base := { autoneg := 1, speed := 10, duplex := 1 }
    link_modes := { supported := c6Bitmap, advertising := c6Bitmap, lp_advertising := [] } }

/-- C6 counterexample: a SET with autoneg left on, speed 1000, no explicit
bitset, on a device supporting 1000baseT/Full and 100baseT/Full, whose
advertised set also carries the Autoneg bit (bit 6 — a Link Mode Table
entry with unknown speed). The claim demands that after the update exactly
the known-speed, supported, speed-matching bits are set and every other
bit is cleared, i.e. advertised = {1000baseT/Full} only; the code instead
leaves bit 6 set (unknown-speed entries are skipped, not cleared). -/
theorem update_link_modes_keeps_unknown_speed_bits :
    linkModeInfoAt 6 = ⟨SPEED_UNKNOWN, DUPLEX_UNKNOWN⟩ ∧
    (update_link_modes { speed := some 1000 } c6KSettings).1.link_modes.advertising.getD 6 false
      = true ∧
    (update_link_modes { speed := some 1000 } c6KSettings).1.link_modes.advertising.getD 5 false
      = true ∧
    (update_link_modes { speed := some 1000 } c6KSettings).1.link_modes.advertising.getD 3 false
      = false := by
  refine ⟨by decide, by decide, by decide, by decide⟩

/-- C6 as amended: when autonegotiation is (still) on after the update, an
explicit speed and/or duplex is supplied and no explicit capability bitset
is, the advertised bitmap is recomputed so that every bit whose Link Mode
Table entry has a known speed is set exactly when it is supported and
matches the requested speed (if given) and duplex (if given) — while bits
whose table entry has unknown speed keep their previous value rather than
being cleared. -/
theorem update_link_modes_auto_advertising (ks : KSettings) (req : LinkModesReq)
    (hours : req.ours = none)
    (hreq : req.speed.isSome ∨ req.duplex.isSome)
    (hauto : (update_link_modes req ks).1.base.autoneg ≠ 0) :
    ∀ i, i < __ETHTOOL_LINK_MODE_MASK_NBITS →
      ((linkModeInfoAt i).speed ≠ SPEED_UNKNOWN →
        (update_link_modes req ks).1.link_modes.advertising.getD i false =
          (ks.link_modes.supported.getD i false &&
           (!req.speed.isSome || (linkModeInfoAt i).speed == (update_link_modes req ks).1.base.speed) &&
           (!req.duplex.isSome || (linkModeInfoAt i).duplex == (update_link_modes req ks).1.base.duplex))) ∧
      ((linkModeInfoAt i).speed = SPEED_UNKNOWN →
        (update_link_modes req ks).1.link_modes.advertising.getD i false =
          ks.link_modes.advertising.getD i false) := by
  intro i hi
  have hi67 : i < 67 := hi
  have hb : (update_link_modes req ks).1.base =
      { ks.base with
        autoneg := (ethnl_update_u8 ks.base.autoneg req.autoneg).1
        speed := (ethnl_update_u32 ks.base.speed req.speed).1
        duplex := (ethnl_update_u8 ks.base.duplex req.duplex).1 } := by
    simp only [update_link_modes, hours, ethnl_update_bitset]
    split <;> rfl
  have hauto2 : (ethnl_update_u8 ks.base.autoneg req.autoneg).1 ≠ 0 := by
    intro h0
    apply hauto
    rw [hb]
    exact h0
  have hadv : (update_link_modes req ks).1.link_modes.advertising =
      (auto_link_modes
        { base :=
            { ks.base with
              autoneg := (ethnl_update_u8 ks.base.autoneg req.autoneg).1
              speed := (ethnl_update_u32 ks.base.speed req.speed).1
              duplex := (ethnl_update_u8 ks.base.duplex req.duplex).1 }
          link_modes := ks.link_modes }
        req.speed.isSome req.duplex.isSome).1 := by
    simp only [update_link_modes, hours, ethnl_update_bitset]
    rw [if_pos]
    · exact ⟨rfl, hauto2, hreq⟩
  constructor
  · intro hknown
    rw [hadv, hb]
    unfold auto_link_modes
    simp only [List.getD_eq_getElem?_getD, List.getElem?_ofFn, List.ofFnNthVal]
    rw [dif_pos hi]
    simp only [Option.getD_some, Fin.getElem_fin]
    rw [if_neg hknown]
  · intro hunknown
    rw [hadv]
    unfold auto_link_modes
    simp only [List.getD_eq_getElem?_getD, List.getElem?_ofFn, List.ofFnNthVal]
    rw [dif_pos hi]
    simp only [Option.getD_some, Fin.getElem_fin]
    rw [if_pos hunknown]

/-- Bitmap with bits 3 (100baseT/Full) and 5 (1000baseT/Full) set. -/
def c6WBitmap : List Bool :=
  List.ofFn (n := __ETHTOOL_LINK_MODE_MASK_NBITS) (fun i => i.val == 3 || i.val == 5)

/-- Witness for C6 as amended: the spec example — autoneg on, speed 1000,
supported = advertised = {100baseT/Full, 1000baseT/Full} — keeps exactly
1000baseT/Full advertised. -/
theorem update_link_modes_auto_advertising_witness :
    (update_link_modes { speed := some 1000 }
      { base := { autoneg := 1, speed := 10, duplex := 1 }
        link_modes := { supported := c6WBitmap, advertising := c6WBitmap,
                        lp_advertising := [] } }).1.link_modes.advertising.getD 5 false = true ∧
    (update_link_modes { speed := some 1000 }
      { base := { autoneg := 1, speed := 10, duplex := 1 }
        link_modes := { supported := c6WBitmap, advertising := c6WBitmap,
                        lp_advertising := [] } }).1.link_modes.advertising.getD 3 false = false := by
  have h := update_link_modes_auto_advertising
    { base := { autoneg := 1, speed := 10, duplex := 1 }
      link_modes := { supported := c6WBitmap, advertising := c6WBitmap, lp_advertising := [] } }
    { speed := some 1000 } rfl (Or.inl (by decide)) (by decide)
  constructor
  · rw [(h 5 (by decide)).1 (by decide)]
    decide
  · rw [(h 3 (by decide)).1 (by decide)]
    decide

/-! ## C1: categories dropped on failed operations, and the link-state
exception -/

/-- C1 counterexample: on a device whose link-state operation fails
(`__ethtool_get_link` yields `-EOPNOTSUPP`), a GET asking only for the
link-state category keeps that category in the achieved info mask and the
reply carries an (empty) link-state sub-container — the claim that a
failed category is always cleared and its sub-container absent is false
for link-state. -/
theorem prepare_settings_linkstate_not_dropped :
    (prepare_settings {} ETHTOOL_IM_SETTINGS_LINKSTATE true false).info_mask =
      ETHTOOL_IM_SETTINGS_LINKSTATE ∧
    fill_settings (prepare_settings {} ETHTOOL_IM_SETTINGS_LINKSTATE true false)
      (fun _ => []) = [.nest ETHTOOL_A_SETTINGS_LINK_STATE []] :=
  ⟨rfl, rfl⟩

/-- If every bit of `s` lies in `b`, a mask with no `b`-bits has no
`s`-bits. -/
theorem and_sub_eq_zero (m b s : Nat) (h : m &&& b = 0) (hs : s &&& b = s) :
    m &&& s = 0 := by
  apply Nat.eq_of_testBit_eq
  intro i
  have h1 := congrArg (fun x => x.testBit i) h
  have h2 := congrArg (fun x => x.testBit i) hs
  simp only [Nat.testBit_and, Nat.zero_testBit] at h1 h2
  rw [Nat.testBit_and, Nat.zero_testBit]
  cases hm : m.testBit i <;> cases hsb : s.testBit i <;> cases hbb : b.testBit i <;>
    simp_all

theorem clear32_and_zero (m bits sub : Nat) (h : m &&& sub = 0) :
    clear32 m bits &&& sub = 0 := by
  apply Nat.eq_of_testBit_eq
  intro i
  have h1 := congrArg (fun x => x.testBit i) h
  simp only [Nat.testBit_and, Nat.zero_testBit] at h1
  rw [Nat.testBit_and, Nat.zero_testBit]
  unfold clear32
  rw [Nat.testBit_and]
  cases hm : m.testBit i <;> cases hs : sub.testBit i <;> simp_all

theorem opt_clear_and_zero (m bits sub : Nat) (cond : Prop) [Decidable cond]
    (h : m &&& sub = 0) : (if cond then clear32 m bits else m) &&& sub = 0 := by
  split
  · exact clear32_and_zero m bits sub h
  · exact h

theorem opt_clear_preserves (m bits sub : Nat) (cond : Prop) [Decidable cond]
    (hbits : bits < 2 ^ 32) (hsub : sub < 2 ^ 32) (hdis : sub &&& bits = 0) :
    (if cond then clear32 m bits else m) &&& sub = m &&& sub := by
  split
  · exact clear32_and_disjoint m bits sub hbits hsub hdis
  · rfl

theorem stage_clears (m b : Nat) (X : Prop) [Decidable X] (hX : X) (hb : b < 2 ^ 32) :
    (if m &&& b ≠ 0 ∧ X then clear32 m b else m) &&& b = 0 := by
  by_cases hm : m &&& b ≠ 0
  · rw [if_pos ⟨hm, hX⟩]
    exact clear32_and_sub m b b hb (Nat.and_self b)
  · rw [if_neg (fun hc => hm hc.1)]
    exact not_not.mp hm

theorem prepare_settings_mask_shape (ops : SettingsOps) (rm : Nat) (c p : Bool) :
    (prepare_settings ops rm c p).info_mask =
      (let m1 :=
        if rm &&& (ETHTOOL_IM_SETTINGS_LINKINFO ||| ETHTOOL_IM_SETTINGS_LINKMODES) ≠ 0 ∧
            ops.ksettings = none
        then clear32 rm (ETHTOOL_IM_SETTINGS_LINKINFO ||| ETHTOOL_IM_SETTINGS_LINKMODES)
        else rm
      if m1 &&& ETHTOOL_IM_SETTINGS_WOL ≠ 0 ∧ ops.wol = none
      then clear32 m1 ETHTOOL_IM_SETTINGS_WOL
      else m1) := by
  rcases ops with ⟨oks, olink, owol⟩
  rcases oks with _ | ks <;> rcases owol with _ | w <;>
    simp only [prepare_settings] <;> split_ifs <;> simp_all

/-- The mask leaving each block either is the incoming one or has the
block category cleared. -/
theorem params_prep_coalesce_mask_cases (oc : Option (Except Nat Coalesce)) (m : Nat) :
    (params_prep_coalesce oc m).2 = m ∨
    (params_prep_coalesce oc m).2 = clear32 m ETHTOOL_IM_PARAMS_COALESCE := by
  unfold params_prep_coalesce
  split
  · rcases oc with _ | x
    · simp
    · rcases x with e | cc <;> simp
  · simp

theorem params_prep_ring_mask_cases (orr : Option RingParam) (m : Nat) :
    (params_prep_ring orr m).2 = m ∨
    (params_prep_ring orr m).2 = clear32 m ETHTOOL_IM_PARAMS_RING := by
  unfold params_prep_ring
  split
  · rcases orr with _ | r <;> simp
  · simp

theorem params_prep_pause_mask_cases (op : Option PauseParam) (m : Nat) :
    (params_prep_pause op m).2 = m ∨
    (params_prep_pause op m).2 = clear32 m ETHTOOL_IM_PARAMS_PAUSE := by
  unfold params_prep_pause
  split
  · rcases op with _ | p <;> simp
  · simp

theorem params_prep_channels_mask_cases (och : Option Channels) (m : Nat) :
    (params_prep_channels och m).2 = m ∨
    (params_prep_channels och m).2 = clear32 m ETHTOOL_IM_PARAMS_CHANNELS := by
  unfold params_prep_channels
  split
  · rcases och with _ | c <;> simp
  · simp

/-- A block preserves a zero bit of the incoming mask. -/
theorem params_prep_and_zero {m m2 bits sub : Nat}
    (hcase : m2 = m ∨ m2 = clear32 m bits) (h : m &&& sub = 0) : m2 &&& sub = 0 := by
  rcases hcase with h2 | h2 <;> subst h2
  · exact h
  · exact clear32_and_zero m bits sub h

/-- A failed block clears its own category bit. -/
theorem params_prep_coalesce_mask_fail (oc : Option (Except Nat Coalesce)) (m : Nat)
    (h : ∀ x, oc ≠ some (.ok x)) :
    (params_prep_coalesce oc m).2 &&& ETHTOOL_IM_PARAMS_COALESCE = 0 := by
  unfold params_prep_coalesce
  split
  · rcases oc with _ | x
    · exact clear32_and_sub _ _ _ (by decide) (by decide)
    · rcases x with e | cc
      · exact clear32_and_sub _ _ _ (by decide) (by decide)
      · exact absurd rfl (h cc)
  · simp only []
    omega

theorem params_prep_ring_mask_fail (m : Nat) :
    (params_prep_ring none m).2 &&& ETHTOOL_IM_PARAMS_RING = 0 := by
  unfold params_prep_ring
  split
  · exact clear32_and_sub _ _ _ (by decide) (by decide)
  · simp only []
    omega

theorem params_prep_pause_mask_fail (m : Nat) :
    (params_prep_pause none m).2 &&& ETHTOOL_IM_PARAMS_PAUSE = 0 := by
  unfold params_prep_pause
  split
  · exact clear32_and_sub _ _ _ (by decide) (by decide)
  · simp only []
    omega

theorem params_prep_channels_mask_fail (m : Nat) :
    (params_prep_channels none m).2 &&& ETHTOOL_IM_PARAMS_CHANNELS = 0 := by
  unfold params_prep_channels
  split
  · exact clear32_and_sub _ _ _ (by decide) (by decide)
  · simp only []
    omega

theorem prepare_settings_link_none (ops : SettingsOps) (rm : Nat) (c p : Bool)
    (h : ops.link = none) :
    (prepare_settings ops rm c p).link = -(EOPNOTSUPP : Int) := by
  obtain ⟨oks, olink, owol⟩ := ops
  subst h
  rcases oks with _ | ks <;> rcases owol with _ | w <;>
    simp only [prepare_settings] <;> split_ifs <;> rfl

/-- Decomposition of the reply of `fill_settings`: every member is the
sub-container of a category present in the achieved mask. -/
theorem fill_settings_mem (d : SettingsData) (names : Nat → List Nat) (a : Attr)
    (ha : a ∈ fill_settings d names) :
    (d.info_mask &&& ETHTOOL_IM_SETTINGS_LINKINFO ≠ 0 ∧
      a = fill_link_info d.ksettings.base) ∨
    (d.info_mask &&& ETHTOOL_IM_SETTINGS_LINKMODES ≠ 0 ∧
      a = fill_link_modes d.ksettings d.lpm_empty d.compact names) ∨
    (d.info_mask &&& ETHTOOL_IM_SETTINGS_LINKSTATE ≠ 0 ∧ a = fill_link_state d.link) ∨
    (d.info_mask &&& ETHTOOL_IM_SETTINGS_WOL ≠ 0 ∧
      a = fill_wolinfo d.wolinfo d.privileged) := by
  simp only [fill_settings, List.mem_append] at ha
  rcases ha with ((h | h) | h) | h
  · refine Or.inl ?_
    revert h
    split <;> simp_all
  · refine Or.inr (Or.inl ?_)
    revert h
    split <;> simp_all
  · refine Or.inr (Or.inr (Or.inl ?_))
    revert h
    split <;> simp_all
  · refine Or.inr (Or.inr (Or.inr ?_))
    revert h
    split <;> simp_all

/-- Decomposition of the reply of `fill_params`. -/
theorem fill_params_mem (d : ParamsData) (a : Attr) (ha : a ∈ fill_params d) :
    (d.info_mask &&& ETHTOOL_IM_PARAMS_COALESCE ≠ 0 ∧ a = fill_coalesce d.coalesce) ∨
    (d.info_mask &&& ETHTOOL_IM_PARAMS_RING ≠ 0 ∧ a = fill_ring d.ring) ∨
    (d.info_mask &&& ETHTOOL_IM_PARAMS_PAUSE ≠ 0 ∧ a = fill_pause d.pause) ∨
    (d.info_mask &&& ETHTOOL_IM_PARAMS_CHANNELS ≠ 0 ∧ a = fill_channels d.channels) := by
  simp only [fill_params, List.mem_append] at ha
  rcases ha with ((h | h) | h) | h
  · refine Or.inl ?_
    revert h
    split <;> simp_all
  · refine Or.inr (Or.inl ?_)
    revert h
    split <;> simp_all
  · refine Or.inr (Or.inr (Or.inl ?_))
    revert h
    split <;> simp_all
  · refine Or.inr (Or.inr (Or.inr ?_))
    revert h
    split <;> simp_all

theorem fill_link_info_tag (l : LinkSettings) :
    (fill_link_info l).tag = ETHTOOL_A_SETTINGS_LINK_INFO := rfl

theorem fill_link_modes_tag (ks : KSettings) (l c : Bool) (names : Nat → List Nat) :
    (fill_link_modes ks l c names).tag = ETHTOOL_A_SETTINGS_LINK_MODES := rfl

theorem fill_link_state_tag (link : Int) :
    (fill_link_state link).tag = ETHTOOL_A_SETTINGS_LINK_STATE := rfl

theorem fill_wolinfo_tag (w : WolInfo) (p : Bool) :
    (fill_wolinfo w p).tag = ETHTOOL_A_SETTINGS_WOL := rfl

theorem fill_coalesce_tag (c : Coalesce) :
    (fill_coalesce c).tag = ETHTOOL_A_PARAMS_COALESCE := rfl

theorem fill_ring_tag (r : RingParam) : (fill_ring r).tag = ETHTOOL_A_PARAMS_RING := rfl

theorem fill_pause_tag (p : PauseParam) : (fill_pause p).tag = ETHTOOL_A_PARAMS_PAUSE := rfl

theorem fill_channels_tag (c : Channels) :
    (fill_channels c).tag = ETHTOOL_A_PARAMS_CHANNELS := rfl

/-- An optional clear can only remove bits. -/
theorem opt_clear_testBit_mono (m b : Nat) (cond : Prop) [Decidable cond] (i : Nat)
    (h : (if cond then clear32 m b else m).testBit i = true) : m.testBit i = true := by
  revert h
  split
  · unfold clear32
    rw [Nat.testBit_and]
    intro h
    simp only [Bool.and_eq_true] at h
    exact h.1
  · exact id

/-- The achieved settings mask is a subset of the requested one. -/
theorem prepare_settings_mask_subset (ops : SettingsOps) (rm : Nat) (c p : Bool) (i : Nat)
    (h : (prepare_settings ops rm c p).info_mask.testBit i = true) : rm.testBit i = true := by
  rw [prepare_settings_mask_shape] at h
  exact opt_clear_testBit_mono _ _ _ _ (opt_clear_testBit_mono _ _ _ _ h)

/-- C1 as amended: for the settings command, a failing link-settings
operation clears link-info and link-modes from the achieved mask and the
reply carries no sub-container for either (in particular a request for
link-modes alone achieves the empty mask and an empty reply); a failing
wake-on-LAN operation does the same for its category; for the parameters
command every category with a missing or failing get operation is cleared
with no sub-container emitted. The exception is link-state: its bit is
never cleared, and when the link operation fails the reply carries an
empty link-state sub-container instead. `prepare_data` succeeds in all
these cases. -/
theorem prepare_drops_failed_categories :
    (∀ (ops : SettingsOps) (rm : Nat) (c p : Bool) (names : Nat → List Nat),
      ops.ksettings = none →
        (prepare_settings ops rm c p).info_mask &&&
          (ETHTOOL_IM_SETTINGS_LINKINFO ||| ETHTOOL_IM_SETTINGS_LINKMODES) = 0 ∧
        ∀ a ∈ fill_settings (prepare_settings ops rm c p) names,
          a.tag ≠ ETHTOOL_A_SETTINGS_LINK_INFO ∧ a.tag ≠ ETHTOOL_A_SETTINGS_LINK_MODES) ∧
    (∀ (ops : SettingsOps) (rm : Nat) (c p : Bool) (names : Nat → List Nat),
      ops.wol = none →
        (prepare_settings ops rm c p).info_mask &&& ETHTOOL_IM_SETTINGS_WOL = 0 ∧
        ∀ a ∈ fill_settings (prepare_settings ops rm c p) names,
          a.tag ≠ ETHTOOL_A_SETTINGS_WOL) ∧
    (∀ (ops : SettingsOps) (c p : Bool) (names : Nat → List Nat),
      ops.ksettings = none →
        (prepare_settings ops ETHTOOL_IM_SETTINGS_LINKMODES c p).info_mask = 0 ∧
        fill_settings (prepare_settings ops ETHTOOL_IM_SETTINGS_LINKMODES c p) names = []) ∧
    (∀ (ops : SettingsOps) (rm : Nat) (c p : Bool) (names : Nat → List Nat),
      ops.link = none →
        (prepare_settings ops rm c p).info_mask &&& ETHTOOL_IM_SETTINGS_LINKSTATE =
          rm &&& ETHTOOL_IM_SETTINGS_LINKSTATE ∧
        (rm &&& ETHTOOL_IM_SETTINGS_LINKSTATE ≠ 0 →
          Attr.nest ETHTOOL_A_SETTINGS_LINK_STATE [] ∈
            fill_settings (prepare_settings ops rm c p) names)) ∧
    (∀ (ops : ParamsOps) (rm : Nat) (c : Bool),
      ((∀ x, ops.coalesce ≠ some (.ok x)) →
        (prepare_params ops rm c).info_mask &&& ETHTOOL_IM_PARAMS_COALESCE = 0 ∧
        ∀ a ∈ fill_params (prepare_params ops rm c), a.tag ≠ ETHTOOL_A_PARAMS_COALESCE) ∧
      (ops.ring = none →
        (prepare_params ops rm c).info_mask &&& ETHTOOL_IM_PARAMS_RING = 0 ∧
        ∀ a ∈ fill_params (prepare_params ops rm c), a.tag ≠ ETHTOOL_A_PARAMS_RING) ∧
      (ops.pause = none →
        (prepare_params ops rm c).info_mask &&& ETHTOOL_IM_PARAMS_PAUSE = 0 ∧
        ∀ a ∈ fill_params (prepare_params ops rm c), a.tag ≠ ETHTOOL_A_PARAMS_PAUSE) ∧
      (ops.channels = none →
        (prepare_params ops rm c).info_mask &&& ETHTOOL_IM_PARAMS_CHANNELS = 0 ∧
        ∀ a ∈ fill_params (prepare_params ops rm c), a.tag ≠ ETHTOOL_A_PARAMS_CHANNELS)) := by
  refine ⟨?_, ?_, ?_, ?_, ?_⟩
  · -- failing link-settings operation
    intro ops rm c p names hks
    have h3 : (prepare_settings ops rm c p).info_mask &&&
        (ETHTOOL_IM_SETTINGS_LINKINFO ||| ETHTOOL_IM_SETTINGS_LINKMODES) = 0 := by
      rw [prepare_settings_mask_shape]
      exact opt_clear_and_zero _ _ _ _ (stage_clears _ _ _ hks (by decide))
    refine ⟨h3, ?_⟩
    intro a ha
    have h1 : (prepare_settings ops rm c p).info_mask &&& ETHTOOL_IM_SETTINGS_LINKINFO = 0 :=
      and_sub_eq_zero _ _ _ h3 (by decide)
    have h2 : (prepare_settings ops rm c p).info_mask &&& ETHTOOL_IM_SETTINGS_LINKMODES = 0 :=
      and_sub_eq_zero _ _ _ h3 (by decide)
    rcases fill_settings_mem _ names a ha with ⟨hc, he⟩ | ⟨hc, he⟩ | ⟨hc, he⟩ | ⟨hc, he⟩
    · exact absurd h1 hc
    · exact absurd h2 hc
    · subst he
      rw [fill_link_state_tag]
      exact ⟨by decide, by decide⟩
    · subst he
      rw [fill_wolinfo_tag]
      exact ⟨by decide, by decide⟩
  · -- failing wake-on-LAN operation
    intro ops rm c p names hwol
    have h8 : (prepare_settings ops rm c p).info_mask &&& ETHTOOL_IM_SETTINGS_WOL = 0 := by
      rw [prepare_settings_mask_shape]
      exact stage_clears _ _ _ hwol (by decide)
    refine ⟨h8, ?_⟩
    intro a ha
    rcases fill_settings_mem _ names a ha with ⟨hc, he⟩ | ⟨hc, he⟩ | ⟨hc, he⟩ | ⟨hc, he⟩
    · subst he
      rw [fill_link_info_tag]
      decide
    · subst he
      rw [fill_link_modes_tag]
      decide
    · subst he
      rw [fill_link_state_tag]
      decide
    · exact absurd h8 hc
  · -- link-modes alone on a device without a link-modes-capable operation
    intro ops c p names hks
    have h3 : (prepare_settings ops ETHTOOL_IM_SETTINGS_LINKMODES c p).info_mask &&&
        (ETHTOOL_IM_SETTINGS_LINKINFO ||| ETHTOOL_IM_SETTINGS_LINKMODES) = 0 := by
      rw [prepare_settings_mask_shape]
      exact opt_clear_and_zero _ _ _ _ (stage_clears _ _ _ hks (by decide))
    have h2 : (prepare_settings ops ETHTOOL_IM_SETTINGS_LINKMODES c p).info_mask &&&
        ETHTOOL_IM_SETTINGS_LINKMODES = 0 := and_sub_eq_zero _ _ _ h3 (by decide)
    have h0 : (prepare_settings ops ETHTOOL_IM_SETTINGS_LINKMODES c p).info_mask = 0 := by
      apply Nat.eq_of_testBit_eq
      intro i
      rw [Nat.zero_testBit]
      cases hb : (prepare_settings ops ETHTOOL_IM_SETTINGS_LINKMODES c p).info_mask.testBit i
      · rfl
      · exfalso
        have hrm := prepare_settings_mask_subset ops _ c p i hb
        have hi : i = 1 := by
          rcases i with _ | _ | j
          · exact absurd hrm (by decide)
          · rfl
          · refine absurd hrm ?_
            have h4 : (ETHTOOL_IM_SETTINGS_LINKMODES : Nat) < 2 ^ (j + 2) := by
              calc (ETHTOOL_IM_SETTINGS_LINKMODES : Nat) < 2 ^ 2 := by decide
              _ ≤ 2 ^ (j + 2) := Nat.pow_le_pow_right (by omega) (by omega)
            simp [Nat.testBit_lt_two_pow h4]
        subst hi
        have := congrArg (fun x => x.testBit 1) h2
        simp only [Nat.testBit_and, Nat.zero_testBit] at this
        rw [hb] at this
        simp [show Nat.testBit ETHTOOL_IM_SETTINGS_LINKMODES 1 = true from by decide] at this
    refine ⟨h0, ?_⟩
    simp [fill_settings, h0]
  · -- the link-state exception
    intro ops rm c p names hlk
    have hmask : (prepare_settings ops rm c p).info_mask &&& ETHTOOL_IM_SETTINGS_LINKSTATE =
        rm &&& ETHTOOL_IM_SETTINGS_LINKSTATE := by
      rw [prepare_settings_mask_shape]
      exact (opt_clear_preserves _ _ _ _ (by decide) (by decide) (by decide)).trans
        (opt_clear_preserves _ _ _ _ (by decide) (by decide) (by decide))
    refine ⟨hmask, ?_⟩
    intro h4
    have hlink := prepare_settings_link_none ops rm c p hlk
    have hm4 : (prepare_settings ops rm c p).info_mask &&& ETHTOOL_IM_SETTINGS_LINKSTATE ≠ 0 := by
      rw [hmask]
      exact h4
    simp only [fill_settings]
    refine List.mem_append.mpr (Or.inl (List.mem_append.mpr (Or.inr ?_)))
    rw [if_pos hm4, hlink]
    simp [fill_link_state, EOPNOTSUPP]
  · -- the parameters command drops every failing category
    intro ops rm c
    refine ⟨?_, ?_, ?_, ?_⟩
    · intro hco
      have h1 : (prepare_params ops rm c).info_mask &&& ETHTOOL_IM_PARAMS_COALESCE = 0 := by
        show (params_prep_channels ops.channels (params_prep_pause ops.pause
          (params_prep_ring ops.ring
            (params_prep_coalesce ops.coalesce rm).2).2).2).2 &&&
          ETHTOOL_IM_PARAMS_COALESCE = 0
        exact params_prep_and_zero (params_prep_channels_mask_cases _ _)
          (params_prep_and_zero (params_prep_pause_mask_cases _ _)
            (params_prep_and_zero (params_prep_ring_mask_cases _ _)
              (params_prep_coalesce_mask_fail _ _ hco)))
      refine ⟨h1, ?_⟩
      intro a ha
      rcases fill_params_mem _ a ha with ⟨hc, he⟩ | ⟨hc, he⟩ | ⟨hc, he⟩ | ⟨hc, he⟩
      · exact absurd h1 hc
      · subst he
        rw [fill_ring_tag]
        decide
      · subst he
        rw [fill_pause_tag]
        decide
      · subst he
        rw [fill_channels_tag]
        decide
    · intro hrg
      have h1 : (prepare_params ops rm c).info_mask &&& ETHTOOL_IM_PARAMS_RING = 0 := by
        show (params_prep_channels ops.channels (params_prep_pause ops.pause
          (params_prep_ring ops.ring
            (params_prep_coalesce ops.coalesce rm).2).2).2).2 &&&
          ETHTOOL_IM_PARAMS_RING = 0
        rw [hrg]
        exact params_prep_and_zero (params_prep_channels_mask_cases _ _)
          (params_prep_and_zero (params_prep_pause_mask_cases _ _)
            (params_prep_ring_mask_fail _))
      refine ⟨h1, ?_⟩
      intro a ha
      rcases fill_params_mem _ a ha with ⟨hc, he⟩ | ⟨hc, he⟩ | ⟨hc, he⟩ | ⟨hc, he⟩
      · subst he
        rw [fill_coalesce_tag]
        decide
      · exact absurd h1 hc
      · subst he
        rw [fill_pause_tag]
        decide
      · subst he
        rw [fill_channels_tag]
        decide
    · intro hpa
      have h1 : (prepare_params ops rm c).info_mask &&& ETHTOOL_IM_PARAMS_PAUSE = 0 := by
        show (params_prep_channels ops.channels (params_prep_pause ops.pause
          (params_prep_ring ops.ring
            (params_prep_coalesce ops.coalesce rm).2).2).2).2 &&&
          ETHTOOL_IM_PARAMS_PAUSE = 0
        rw [hpa]
        exact params_prep_and_zero (params_prep_channels_mask_cases _ _)
          (params_prep_pause_mask_fail _)
      refine ⟨h1, ?_⟩
      intro a ha
      rcases fill_params_mem _ a ha with ⟨hc, he⟩ | ⟨hc, he⟩ | ⟨hc, he⟩ | ⟨hc, he⟩
      · subst he
        rw [fill_coalesce_tag]
        decide
      · subst he
        rw [fill_ring_tag]
        decide
      · exact absurd h1 hc
      · subst he
        rw [fill_channels_tag]
        decide
    · intro hch
      have h1 : (prepare_params ops rm c).info_mask &&& ETHTOOL_IM_PARAMS_CHANNELS = 0 := by
        show (params_prep_channels ops.channels (params_prep_pause ops.pause
          (params_prep_ring ops.ring
            (params_prep_coalesce ops.coalesce rm).2).2).2).2 &&&
          ETHTOOL_IM_PARAMS_CHANNELS = 0
        rw [hch]
        exact params_prep_channels_mask_fail _
      refine ⟨h1, ?_⟩
      intro a ha
      rcases fill_params_mem _ a ha with ⟨hc, he⟩ | ⟨hc, he⟩ | ⟨hc, he⟩ | ⟨hc, he⟩
      · subst he
        rw [fill_coalesce_tag]
        decide
      · subst he
        rw [fill_ring_tag]
        decide
      · subst he
        rw [fill_pause_tag]
        decide
      · exact absurd h1 hc

/-- Witness for C1 as amended. -/
theorem prepare_drops_failed_categories_witness :
    (prepare_settings {} ETHTOOL_IM_SETTINGS_LINKMODES true false).info_mask = 0 ∧
    fill_settings (prepare_settings {} ETHTOOL_IM_SETTINGS_LINKMODES true false)
      (fun _ => []) = [] ∧
    (prepare_params {} 15 false).info_mask &&& ETHTOOL_IM_PARAMS_RING = 0 := by
  refine ⟨(prepare_drops_failed_categories.2.2.1 {} true false (fun _ => []) rfl).1,
    (prepare_drops_failed_categories.2.2.1 {} true false (fun _ => []) rfl).2,
    (prepare_drops_failed_categories.2.2.2.2 {} 15 false).2.1 rfl |>.1⟩

/-! ## C2: `reply_size` bounds what `fill_reply` writes -/

theorem attrSize_leaf (t : Nat) (p : List Nat) :
    attrSize (.leaf t p) = nla_total_size p.length := by
  simp [attrSize]

theorem attrSize_nest (t : Nat) (cs : List Attr) :
    attrSize (.nest t cs) = nla_total_size (attrListSize cs) := by
  simp [attrSize]

theorem attrListSize_nil : attrListSize [] = 0 := by simp [attrListSize]

theorem attrListSize_cons (a : Attr) (as : List Attr) :
    attrListSize (a :: as) = attrSize a + attrListSize as := by
  simp [attrListSize]

theorem attrListSize_append (xs ys : List Attr) :
    attrListSize (xs ++ ys) = attrListSize xs + attrListSize ys := by
  induction xs with
  | nil => simp [attrListSize]
  | cons a as ih =>
    simp only [List.cons_append, attrListSize_cons, ih]
    omega

theorem nla_total_size_mono {a b : Nat} (h : a ≤ b) :
    nla_total_size a ≤ nla_total_size b := by
  unfold nla_total_size
  exact Nat.mul_le_mul_right 4 (Nat.div_le_div_right (by omega))

/-- The size of a bitset attribute does not depend on its tag, so the
modelled `ethnl_bitset32_size` is exactly the length `ethnl_put_bitset32`
produces from the same arguments. -/
theorem ethnl_put_bitset32_size_eq (t nbits : Nat) (v : List Bool)
    (mask : Option (List Bool)) (names : Nat → List Nat) (compact : Bool) :
    attrSize (ethnl_put_bitset32 t nbits v mask names compact) =
      ethnl_bitset32_size nbits v mask names compact := by
  unfold ethnl_bitset32_size ethnl_put_bitset32
  cases compact <;> cases mask <;> simp [attrSize]

theorem cond_singleton_le (c : Prop) [Decidable c] (x : Attr) (s : Nat)
    (h : attrSize x ≤ s) :
    attrListSize (if c then [x] else []) ≤ (if c then s else 0) := by
  split
  · simpa [attrListSize_cons, attrListSize_nil] using h
  · simp [attrListSize_nil]

theorem fill_link_info_size_le (l : LinkSettings) :
    attrSize (fill_link_info l) ≤ link_info_size := by
  simp [fill_link_info, attrSize, attrListSize, nla_total_size, link_info_size]

theorem fill_link_state_size_le (link : Int) :
    attrSize (fill_link_state link) ≤ link_state_size link := by
  unfold fill_link_state link_state_size
  by_cases h : (0 : Int) ≤ link
  · rw [if_pos h, if_neg (show ¬link < 0 by omega)]
    simp [attrSize, attrListSize, nla_total_size]
  · rw [if_neg h, if_pos (show link < (0 : Int) by omega)]
    simp [attrSize, attrListSize, nla_total_size]

theorem fill_wolinfo_size_le (w : WolInfo) (p : Bool) :
    attrSize (fill_wolinfo w p) ≤ wol_size := by
  unfold fill_wolinfo wol_size
  have hsp : ((w.sopass ++ List.replicate 6 0).take 6).length = 6 := by
    simp [List.length_take]
  cases p
  · simp [attrSize, attrListSize, mkU32, nla_total_size]
  · simp [attrSize, attrListSize, attrListSize_append, mkU32, hsp, nla_total_size]

/-- When at least one link-partner bit is set, the compact shape the fill
callback may emit is no longer than the list shape the size callback
reserved (`link_modes_size` computes the peer bitset length with the
`ETHNL_BITSET_COMPACT` flag masked out). -/
theorem bitset_put_le_list_size (lp : List Bool) (names : Nat → List Nat) (t : Nat)
    (compact : Bool)
    (hne : bitmapEmpty lp __ETHTOOL_LINK_MODE_MASK_NBITS = false) :
    attrSize (ethnl_put_bitset32 t __ETHTOOL_LINK_MODE_MASK_NBITS lp none names compact) ≤
      ethnl_bitset32_size __ETHTOOL_LINK_MODE_MASK_NBITS lp none names false := by
  cases compact
  · rw [ethnl_put_bitset32_size_eq]
  · -- the fill emits the compact shape, the size reserved the list shape
    obtain ⟨i, hi, hbit⟩ : ∃ i ∈ List.range __ETHTOOL_LINK_MODE_MASK_NBITS,
        lp.getD i false = true := by
      unfold bitmapEmpty at hne
      rw [List.all_eq_false] at hne
      obtain ⟨i, hi, h⟩ := hne
      exact ⟨i, hi, by simpa using h⟩
    have hrel : i ∈ bitsetRelevant __ETHTOOL_LINK_MODE_MASK_NBITS lp none := by
      unfold bitsetRelevant
      rw [List.mem_filter]
      exact ⟨hi, by simpa using hbit⟩
    obtain ⟨pre, post, hsplit⟩ := List.append_of_mem hrel
    have hlhs : attrSize
        (ethnl_put_bitset32 t __ETHTOOL_LINK_MODE_MASK_NBITS lp none names true) = 20 := by
      unfold ethnl_put_bitset32
      simp [attrSize, attrListSize, bitmapBytes, nla_total_size,
        __ETHTOOL_LINK_MODE_MASK_NBITS]
    have hone : 20 ≤ attrSize (Attr.nest 3 [.leaf 4 (mkU32 i), .leaf 5 (names i ++ [0])]) := by
      rw [attrSize_nest, attrListSize_cons, attrListSize_cons, attrListSize_nil,
        attrSize_leaf, attrSize_leaf]
      have h1 : (8 : Nat) ≤ nla_total_size (names i ++ [0]).length := by
        have hx : 1 ≤ (names i ++ [0]).length := by simp
        have := nla_total_size_mono hx
        have h0 : nla_total_size 1 = 8 := by norm_num [nla_total_size]
        omega
      have h2 : nla_total_size (mkU32 i).length = 8 := by norm_num [mkU32, nla_total_size]
      have h3 : (20 : Nat) ≤ nla_total_size 16 := by norm_num [nla_total_size]
      have h4 := nla_total_size_mono (show 16 ≤ nla_total_size (mkU32 i).length +
        (nla_total_size (names i ++ [0]).length + 0) by omega)
      omega
    have hrhs : 24 ≤ ethnl_bitset32_size __ETHTOOL_LINK_MODE_MASK_NBITS lp none names false := by
      unfold ethnl_bitset32_size ethnl_put_bitset32
      simp only [Bool.false_eq_true, if_false, attrSize_nest]
      rw [hsplit]
      simp only [List.map_append, List.map_cons, attrListSize_append, attrListSize_cons]
      calc (24 : Nat) = nla_total_size 20 := by norm_num [nla_total_size]
      _ ≤ _ := by
        apply nla_total_size_mono
        omega
    rw [hlhs]
    omega

theorem fill_link_modes_size_le (ks : KSettings) (names : Nat → List Nat)
    (lpm compact : Bool)
    (hlpm : lpm = false →
      bitmapEmpty ks.link_modes.lp_advertising __ETHTOOL_LINK_MODE_MASK_NBITS = false) :
    attrSize (fill_link_modes ks lpm compact names) ≤ link_modes_size ks names compact := by
  unfold fill_link_modes link_modes_size
  rw [attrSize_nest]
  apply nla_total_size_mono
  rw [attrListSize_append, attrListSize_append]
  rw [attrListSize_cons, attrListSize_cons, attrListSize_nil, attrListSize_cons,
    attrListSize_cons, attrListSize_nil]
  rw [attrSize_leaf, attrSize_leaf, attrSize_leaf]
  have hou := ethnl_put_bitset32_size_eq 2 __ETHTOOL_LINK_MODE_MASK_NBITS
    ks.link_modes.advertising (some ks.link_modes.supported) names compact
  have hpe : attrListSize
      (if lpm = true then [] else
        [ethnl_put_bitset32 3 __ETHTOOL_LINK_MODE_MASK_NBITS ks.link_modes.lp_advertising
          none names compact]) ≤
      ethnl_bitset32_size __ETHTOOL_LINK_MODE_MASK_NBITS ks.link_modes.lp_advertising
        none names false := by
    cases hl : lpm
    · simp only [Bool.false_eq_true, if_false, attrListSize_cons, attrListSize_nil]
      have := bitset_put_le_list_size ks.link_modes.lp_advertising names 3 compact (hlpm hl)
      omega
    · simp [attrListSize_nil]
  have hlen1 : ([ks.base.autoneg % 256] : List Nat).length = 1 := rfl
  have hlen2 : (mkU32 ks.base.speed).length = 4 := rfl
  have hlen3 : ([ks.base.duplex % 256] : List Nat).length = 1 := rfl
  rw [hlen1, hlen2, hlen3, hou]
  have : nla_total_size 1 = 8 := by norm_num [nla_total_size]
  have h4 : nla_total_size 4 = 8 := by norm_num [nla_total_size]
  omega

theorem fill_coalesce_size_eq (c : Coalesce) : attrSize (fill_coalesce c) = coalesce_size := by
  simp [fill_coalesce, attrSize, attrListSize, mkU32, nla_total_size, coalesce_size]

theorem fill_ring_size_eq (r : RingParam) : attrSize (fill_ring r) = ring_size := by
  simp [fill_ring, attrSize, attrListSize, mkU32, nla_total_size, ring_size]

theorem fill_pause_size_eq (p : PauseParam) : attrSize (fill_pause p) = pause_size := by
  simp [fill_pause, attrSize, attrListSize, nla_total_size, pause_size]

theorem fill_channels_size_eq (c : Channels) : attrSize (fill_channels c) = channels_size := by
  simp [fill_channels, attrSize, attrListSize, mkU32, nla_total_size, channels_size]

/-- If `lpm_empty` came out false, the stored link-partner bitmap really
has a bit set. -/
theorem prepare_settings_lpm (ops : SettingsOps) (rm : Nat) (c p : Bool)
    (h : (prepare_settings ops rm c p).lpm_empty = false) :
    bitmapEmpty (prepare_settings ops rm c p).ksettings.link_modes.lp_advertising
      __ETHTOOL_LINK_MODE_MASK_NBITS = false := by
  obtain ⟨oks, olink, owol⟩ := ops
  revert h
  rcases oks with _ | ks <;> rcases owol with _ | w <;>
    simp only [prepare_settings] <;> split_ifs <;> simp_all

theorem fill_settings_size_le (d : SettingsData) (names : Nat → List Nat)
    (hlpm : d.lpm_empty = false →
      bitmapEmpty d.ksettings.link_modes.lp_advertising __ETHTOOL_LINK_MODE_MASK_NBITS = false) :
    attrListSize (fill_settings d names) ≤ settings_size d names := by
  unfold fill_settings settings_size
  rw [attrListSize_append, attrListSize_append, attrListSize_append]
  have h1 := cond_singleton_le (d.info_mask &&& ETHTOOL_IM_SETTINGS_LINKINFO ≠ 0)
    (fill_link_info d.ksettings.base) link_info_size (fill_link_info_size_le _)
  have h2 := cond_singleton_le (d.info_mask &&& ETHTOOL_IM_SETTINGS_LINKMODES ≠ 0)
    (fill_link_modes d.ksettings d.lpm_empty d.compact names)
    (link_modes_size d.ksettings names d.compact)
    (fill_link_modes_size_le d.ksettings names d.lpm_empty d.compact hlpm)
  have h3 := cond_singleton_le (d.info_mask &&& ETHTOOL_IM_SETTINGS_LINKSTATE ≠ 0)
    (fill_link_state d.link) (link_state_size d.link) (fill_link_state_size_le _)
  have h4 := cond_singleton_le (d.info_mask &&& ETHTOOL_IM_SETTINGS_WOL ≠ 0)
    (fill_wolinfo d.wolinfo d.privileged) wol_size (fill_wolinfo_size_le _ _)
  omega

theorem fill_params_size_le (d : ParamsData) :
    attrListSize (fill_params d) ≤ params_size d := by
  unfold fill_params params_size
  rw [attrListSize_append, attrListSize_append, attrListSize_append]
  have h1 := cond_singleton_le (d.info_mask &&& ETHTOOL_IM_PARAMS_COALESCE ≠ 0)
    (fill_coalesce d.coalesce) coalesce_size (le_of_eq (fill_coalesce_size_eq _))
  have h2 := cond_singleton_le (d.info_mask &&& ETHTOOL_IM_PARAMS_RING ≠ 0)
    (fill_ring d.ring) ring_size (le_of_eq (fill_ring_size_eq _))
  have h3 := cond_singleton_le (d.info_mask &&& ETHTOOL_IM_PARAMS_PAUSE ≠ 0)
    (fill_pause d.pause) pause_size (le_of_eq (fill_pause_size_eq _))
  have h4 := cond_singleton_le (d.info_mask &&& ETHTOOL_IM_PARAMS_CHANNELS ≠ 0)
    (fill_channels d.channels) channels_size (le_of_eq (fill_channels_size_eq _))
  omega

/-- C2: for every record produced by a successful `prepare_data`, for any
achieved mask, compact flag and name table, the length computed by the
`reply_size` callback (`settings_size`, `params_size`) bounds the number
of payload bytes the corresponding `fill_reply` callback (`fill_settings`,
`fill_params`) actually writes. -/
theorem reply_size_ge_fill :
    (∀ (ops : SettingsOps) (rm : Nat) (c p : Bool) (names : Nat → List Nat),
      attrListSize (fill_settings (prepare_settings ops rm c p) names) ≤
        settings_size (prepare_settings ops rm c p) names) ∧
    (∀ (ops : ParamsOps) (rm : Nat) (c : Bool),
      attrListSize (fill_params (prepare_params ops rm c)) ≤
        params_size (prepare_params ops rm c)) := by
  constructor
  · intro ops rm c p names
    exact fill_settings_size_le _ names (prepare_settings_lpm ops rm c p)
  · intro ops rm c
    exact fill_params_size_le _

/-! ## C8: per-device failure handling in one dump step -/

/-- Encoded output, remaining capacity and stop state of a bucket scan do
not depend on the running `idx` counter once no devices are being skipped
(`s_idx = 0`). -/
theorem dumpBucket_idx_indep (devs : List DDev) :
    ∀ i j cap,
      (dumpBucket devs 0 i cap).encoded = (dumpBucket devs 0 j cap).encoded ∧
      (dumpBucket devs 0 i cap).capLeft = (dumpBucket devs 0 j cap).capLeft ∧
      (dumpBucket devs 0 i cap).stop = (dumpBucket devs 0 j cap).stop := by
  induction devs with
  | nil => intro i j cap; exact ⟨rfl, rfl, rfl⟩
  | cons d rest ih =>
    intro i j cap
    simp only [dumpBucket, Nat.not_lt_zero, if_false]
    cases hp : d.prep with
    | none =>
      by_cases hc : cap = 0
      · simp [hc]
      · simp only [hc, if_false]
        have := ih (i + 1) (j + 1) (cap - 1)
        simp [this.1, this.2.1, this.2.2]
    | some e =>
      by_cases he : e = EOPNOTSUPP
      · simp only [he, if_pos rfl]
        exact ih (i + 1) (j + 1) cap
      · simp [he]

/-- A device whose preparation reports `-EOPNOTSUPP` contributes nothing:
the scan produces the same encoded output, capacity and stop state as if
the device were not in the bucket. -/
theorem dumpBucket_skips_notsupp (pre post : List DDev) (dns : DDev)
    (h : dns.prep = some EOPNOTSUPP) :
    ∀ idx cap,
      (dumpBucket (pre ++ dns :: post) 0 idx cap).encoded =
        (dumpBucket (pre ++ post) 0 idx cap).encoded ∧
      (dumpBucket (pre ++ dns :: post) 0 idx cap).capLeft =
        (dumpBucket (pre ++ post) 0 idx cap).capLeft ∧
      (dumpBucket (pre ++ dns :: post) 0 idx cap).stop =
        (dumpBucket (pre ++ post) 0 idx cap).stop := by
  induction pre with
  | nil =>
    intro idx cap
    simp only [List.nil_append, dumpBucket, Nat.not_lt_zero, if_false, h, if_pos rfl]
    exact dumpBucket_idx_indep post (idx + 1) idx cap
  | cons d rest ih =>
    intro idx cap
    simp only [List.cons_append, dumpBucket, Nat.not_lt_zero, if_false]
    cases hp : d.prep with
    | none =>
      by_cases hc : cap = 0
      · simp [hc]
      · simp only [hc, if_false]
        have := ih (idx + 1) (cap - 1)
        simp [this.1, this.2.1, this.2.2]
    | some e =>
      by_cases he : e = EOPNOTSUPP
      · simp only [he, if_pos rfl]
        exact ih (idx + 1) cap
      · simp [he]

/-- Scanning a bucket that starts with successfully encoding devices and
then hits a hard failure: everything before the failure is kept, the scan
stops at the failing device without consuming it. -/
theorem dumpBucket_error_stop (dfail : DDev) (e : Nat) (post : List DDev)
    (hfail : dfail.prep = some e) (hne : e ≠ EOPNOTSUPP) :
    ∀ (pre : List DDev) (idx cap : Nat), (∀ d ∈ pre, d.prep = none) →
      pre.length ≤ cap →
      dumpBucket (pre ++ dfail :: post) 0 idx cap =
        ⟨pre, idx + pre.length, cap - pre.length, some e⟩ := by
  intro pre
  induction pre with
  | nil =>
    intro idx cap _ _
    simp [dumpBucket, hfail, hne]
  | cons d rest ih =>
    intro idx cap hok hcap
    have hd : d.prep = none := hok d (by simp)
    have hc : cap ≠ 0 := by
      simp only [List.length_cons] at hcap
      omega
    simp only [List.cons_append, dumpBucket, Nat.not_lt_zero, if_false, hd, hc, if_false,
      List.append_eq]
    rw [ih (idx + 1) (cap - 1) (fun x hx => hok x (by simp [hx]))
      (by simp only [List.length_cons] at hcap; omega)]
    simp only [List.length_cons, BucketRun.mk.injEq]
    refine ⟨trivial, by omega, by omega, trivial⟩

/-- C8: in one dump invocation, (i) a device whose preparation reports
`-EOPNOTSUPP` is silently skipped — the encoded reply units and the
invocation result are exactly those of the same registry without that
device; (ii) any other per-device failure stops the invocation: if some
devices were already encoded, the invocation succeeds, keeps them, and
stores a cursor pointing at the failing device; (iii) if nothing was
encoded yet, the error itself is returned. -/
theorem dumpit_failure_handling :
    (∀ (pre post : List DDev) (dns : DDev) (cap : Nat), dns.prep = some EOPNOTSUPP →
      (ethnl_get_dumpit [pre ++ dns :: post] 0 0 cap).encoded =
        (ethnl_get_dumpit [pre ++ post] 0 0 cap).encoded ∧
      (ethnl_get_dumpit [pre ++ dns :: post] 0 0 cap).res =
        (ethnl_get_dumpit [pre ++ post] 0 0 cap).res) ∧
    (∀ (pre post : List DDev) (dfail : DDev) (e cap : Nat), dfail.prep = some e →
      e ≠ EOPNOTSUPP → (∀ d ∈ pre, d.prep = none) → pre ≠ [] → pre.length ≤ cap →
      ethnl_get_dumpit [pre ++ dfail :: post] 0 0 cap =
        ⟨pre, 0, pre.length, .ok pre.length⟩) ∧
    (∀ (post : List DDev) (dfail : DDev) (e cap : Nat), dfail.prep = some e →
      e ≠ EOPNOTSUPP →
      ethnl_get_dumpit [dfail :: post] 0 0 cap = ⟨[], 0, 0, .error e⟩) := by
  refine ⟨?_, ?_, ?_⟩
  · intro pre post dns cap h
    have hb := dumpBucket_skips_notsupp pre post dns h 0 cap
    unfold ethnl_get_dumpit
    simp only [List.drop_zero, dumpBuckets]
    rw [hb.1, hb.2.2]
    cases hs : (dumpBucket (pre ++ post) 0 0 cap).stop
    · simp
    · by_cases hz : (dumpBucket (pre ++ post) 0 0 cap).encoded = [] <;> simp [hz]
  · intro pre post dfail e cap hfail hne hok hpre hcap
    have hb := dumpBucket_error_stop dfail e post hfail hne pre 0 cap hok hcap
    unfold ethnl_get_dumpit
    simp only [List.drop_zero, dumpBuckets, hb]
    have : pre.length ≠ 0 := by
      cases pre
      · exact absurd rfl hpre
      · simp
    simp [this]
  · intro post dfail e cap hfail hne
    have hb := dumpBucket_error_stop dfail e post hfail hne [] 0 cap (by simp) (by simp)
    unfold ethnl_get_dumpit
    simp only [List.drop_zero, dumpBuckets]
    rw [List.nil_append] at hb
    simp [hb]

/-- Witness for C8. -/
theorem dumpit_failure_handling_witness :
    (ethnl_get_dumpit [[⟨0, none⟩, ⟨1, some EOPNOTSUPP⟩, ⟨2, none⟩]] 0 0 5).encoded =
      (ethnl_get_dumpit [[⟨0, none⟩, ⟨2, none⟩]] 0 0 5).encoded ∧
    ethnl_get_dumpit [[⟨0, none⟩, ⟨1, some 5⟩, ⟨2, none⟩]] 0 0 5 =
      ⟨[⟨0, none⟩], 0, 1, .ok 1⟩ ∧
    ethnl_get_dumpit [[⟨1, some 5⟩, ⟨2, none⟩]] 0 0 5 = ⟨[], 0, 0, .error 5⟩ := by
  refine ⟨(dumpit_failure_handling.1 [⟨0, none⟩] [⟨2, none⟩] ⟨1, some EOPNOTSUPP⟩ 5 rfl).1,
    ?_, dumpit_failure_handling.2.2 [⟨2, none⟩] ⟨1, some 5⟩ 5 5 rfl (by decide)⟩
  exact dumpit_failure_handling.2.1 [⟨0, none⟩] [⟨2, none⟩] ⟨1, some 5⟩ 5 5 rfl (by decide)
    (by intro d hd; simp at hd; rw [hd]) (by simp) (by simp)

/-! ## C3: a dump session visits every device exactly once -/

/-- The devices a dump encodes: those whose preparation succeeds. -/
def filterOk (l : List DDev) : List DDev := l.filter (fun d => d.prep.isNone)

theorem filterOk_cons_ok (d : DDev) (rest : List DDev) (h : d.prep = none) :
    filterOk (d :: rest) = d :: filterOk rest := by
  simp [filterOk, List.filter_cons, h]

theorem filterOk_cons_fail (d : DDev) (rest : List DDev) (e : Nat) (h : d.prep = some e) :
    filterOk (d :: rest) = filterOk rest := by
  simp [filterOk, List.filter_cons, h]

theorem filterOk_append (xs ys : List DDev) :
    filterOk (xs ++ ys) = filterOk xs ++ filterOk ys := by
  simp [filterOk, List.filter_append]

/-- The single-bucket loop invariant: scanning from skip position `s` with
counter `idx`, either the bucket is exhausted and exactly the encodable
remainder was emitted within capacity, or the scan stopped on a full
buffer having emitted exactly `cap` devices, with the stored `idx`
pointing at the unconsumed remainder. -/
theorem dumpBucket_spec (s : Nat) (devs : List DDev)
    (hprep : ∀ d ∈ devs, d.prep = none ∨ d.prep = some EOPNOTSUPP) :
    ∀ idx cap,
      ((dumpBucket devs s idx cap).stop = none →
        (dumpBucket devs s idx cap).encoded = filterOk (devs.drop (s - idx)) ∧
        (dumpBucket devs s idx cap).encoded.length ≤ cap ∧
        (dumpBucket devs s idx cap).capLeft = cap - (dumpBucket devs s idx cap).encoded.length)
      ∧ (∀ e, (dumpBucket devs s idx cap).stop = some e →
        e = EMSGSIZE ∧
        (dumpBucket devs s idx cap).encoded.length = cap ∧
        idx ≤ (dumpBucket devs s idx cap).idx ∧ s ≤ (dumpBucket devs s idx cap).idx ∧
        (dumpBucket devs s idx cap).encoded ++
          filterOk (devs.drop ((dumpBucket devs s idx cap).idx - idx)) =
          filterOk (devs.drop (s - idx))) := by
  induction devs with
  | nil =>
    intro idx cap
    refine ⟨fun _ => ⟨by simp [dumpBucket, filterOk], by simp [dumpBucket], by
      simp [dumpBucket]⟩, fun e he => ?_⟩
    simp [dumpBucket] at he
  | cons d rest ih =>
    have hprep2 : ∀ x ∈ rest, x.prep = none ∨ x.prep = some EOPNOTSUPP :=
      fun x hx => hprep x (by simp [hx])
    intro idx cap
    by_cases hlt : idx < s
    · -- the device is skipped by the cursor
      have hred : dumpBucket (d :: rest) s idx cap = dumpBucket rest s (idx + 1) cap := by
        simp [dumpBucket, hlt]
      have hdrop : (d :: rest).drop (s - idx) = rest.drop (s - (idx + 1)) := by
        have : s - idx = (s - (idx + 1)) + 1 := by omega
        rw [this, List.drop_succ_cons]
      obtain ⟨h1, h2⟩ := ih hprep2 (idx + 1) cap
      rw [hred, hdrop]
      refine ⟨fun hn => h1 hn, fun e he => ?_⟩
      obtain ⟨he1, he2, he3, he4, he5⟩ := h2 e he
      have hdrop2 : (d :: rest).drop ((dumpBucket rest s (idx + 1) cap).idx - idx) =
          rest.drop ((dumpBucket rest s (idx + 1) cap).idx - (idx + 1)) := by
        have : (dumpBucket rest s (idx + 1) cap).idx - idx =
            ((dumpBucket rest s (idx + 1) cap).idx - (idx + 1)) + 1 := by omega
        rw [this, List.drop_succ_cons]
      rw [hdrop2]
      exact ⟨he1, he2, by omega, he4, he5⟩
    · -- the cursor part is over: s - idx = 0
      have hs0 : s - idx = 0 := by omega
      rcases hprep d (by simp) with hd | hd
      · -- the device encodes (or exhausts the buffer)
        by_cases hcap : cap = 0
        · have hred : dumpBucket (d :: rest) s idx cap = ⟨[], idx, cap, some EMSGSIZE⟩ := by
            simp [dumpBucket, hlt, hd, hcap]
          rw [hred]
          refine ⟨fun hn => by simp at hn, fun e he => ?_⟩
          simp only [Option.some_inj] at he
          refine ⟨he.symm, by simp [hcap], (le_refl idx : idx ≤ idx),
            ((by omega : s ≤ idx) : s ≤ idx), ?_⟩
          simp [hs0]
        · have hred : dumpBucket (d :: rest) s idx cap =
              ⟨d :: (dumpBucket rest s (idx + 1) (cap - 1)).encoded,
               (dumpBucket rest s (idx + 1) (cap - 1)).idx,
               (dumpBucket rest s (idx + 1) (cap - 1)).capLeft,
               (dumpBucket rest s (idx + 1) (cap - 1)).stop⟩ := by
            simp [dumpBucket, hlt, hd, hcap]
          have hs1 : s - (idx + 1) = 0 := by omega
          obtain ⟨h1, h2⟩ := ih hprep2 (idx + 1) (cap - 1)
          rw [hred]
          constructor
          · intro hn
            simp only at hn
            obtain ⟨g1, g2, g3⟩ := h1 hn
            rw [hs1] at g1
            simp only [List.drop_zero] at g1
            refine ⟨?_, ?_, ?_⟩
            · simp only [hs0, List.drop_zero]
              rw [filterOk_cons_ok d rest hd, g1]
            · simp only [List.length_cons]
              omega
            · simp only [List.length_cons]
              rw [g3]
              omega
          · intro e he
            simp only at he
            obtain ⟨g1, g2, g3, g4, g5⟩ := h2 e he
            rw [hs1] at g5
            simp only [List.drop_zero] at g5
            simp only
            refine ⟨g1, ?_, by omega, by omega, ?_⟩
            · simp only [List.length_cons]
              omega
            · have hdrop2 : (d :: rest).drop
                  ((dumpBucket rest s (idx + 1) (cap - 1)).idx - idx) =
                  rest.drop ((dumpBucket rest s (idx + 1) (cap - 1)).idx - (idx + 1)) := by
                have : (dumpBucket rest s (idx + 1) (cap - 1)).idx - idx =
                    ((dumpBucket rest s (idx + 1) (cap - 1)).idx - (idx + 1)) + 1 := by omega
                rw [this, List.drop_succ_cons]
              rw [hdrop2, hs0]
              simp only [List.drop_zero, List.cons_append]
              rw [filterOk_cons_ok d rest hd, g5]
      · -- `-EOPNOTSUPP`: the device is consumed without contributing
        have hred : dumpBucket (d :: rest) s idx cap = dumpBucket rest s (idx + 1) cap := by
          simp [dumpBucket, hlt, hd]
        have hs1 : s - (idx + 1) = 0 := by omega
        obtain ⟨h1, h2⟩ := ih hprep2 (idx + 1) cap
        rw [hred]
        constructor
        · intro hn
          obtain ⟨g1, g2, g3⟩ := h1 hn
          rw [hs1] at g1
          simp only [List.drop_zero] at g1
          refine ⟨?_, g2, g3⟩
          simp only [hs0, List.drop_zero]
          rw [filterOk_cons_fail d rest EOPNOTSUPP hd, g1]
        · intro e he
          obtain ⟨g1, g2, g3, g4, g5⟩ := h2 e he
          rw [hs1] at g5
          simp only [List.drop_zero] at g5
          refine ⟨g1, g2, by omega, by omega, ?_⟩
          have hdrop2 : (d :: rest).drop ((dumpBucket rest s (idx + 1) cap).idx - idx) =
              rest.drop ((dumpBucket rest s (idx + 1) cap).idx - (idx + 1)) := by
            have : (dumpBucket rest s (idx + 1) cap).idx - idx =
                ((dumpBucket rest s (idx + 1) cap).idx - (idx + 1)) + 1 := by omega
            rw [this, List.drop_succ_cons]
          rw [hdrop2, hs0]
          simp only [List.drop_zero]
          rw [filterOk_cons_fail d rest EOPNOTSUPP hd, g5]

/-- The devices not yet visited when the inner cursor stands at offset
`i` of the first remaining bucket. -/
def remRel : List (List DDev) → Nat → List DDev
  | [], _ => []
  | b :: rest, i => b.drop i ++ rest.flatten

/-- The devices not yet visited at cursor `(h, i)` over the whole table. -/
def remAt (buckets : List (List DDev)) (h i : Nat) : List DDev :=
  remRel (buckets.drop h) i

theorem remRel_zero (bs : List (List DDev)) : remRel bs 0 = bs.flatten := by
  cases bs with
  | nil => rfl
  | cons b rest => simp [remRel]

theorem dumpBuckets_spec (bs : List (List DDev))
    (hprep : ∀ d ∈ bs.flatten, d.prep = none ∨ d.prep = some EOPNOTSUPP) :
    ∀ h0 s cap idx0,
      ((dumpBuckets bs h0 s cap idx0).stop = none →
        (dumpBuckets bs h0 s cap idx0).encoded = filterOk (remRel bs s) ∧
        (dumpBuckets bs h0 s cap idx0).encoded.length ≤ cap ∧
        (dumpBuckets bs h0 s cap idx0).h = h0 + bs.length) ∧
      (∀ e, (dumpBuckets bs h0 s cap idx0).stop = some e →
        e = EMSGSIZE ∧
        (dumpBuckets bs h0 s cap idx0).encoded.length = cap ∧
        h0 ≤ (dumpBuckets bs h0 s cap idx0).h ∧
        (dumpBuckets bs h0 s cap idx0).encoded ++
          filterOk (remRel (bs.drop ((dumpBuckets bs h0 s cap idx0).h - h0))
            (dumpBuckets bs h0 s cap idx0).idx) =
          filterOk (remRel bs s)) := by
  induction bs with
  | nil =>
    intro h0 s cap idx0
    constructor
    · intro _
      refine ⟨rfl, by simp [dumpBuckets], by simp [dumpBuckets]⟩
    · intro e he
      simp [dumpBuckets] at he
  | cons b rest ih =>
    have hprepb : ∀ d ∈ b, d.prep = none ∨ d.prep = some EOPNOTSUPP := by
      intro d hd
      exact hprep d (by rw [List.flatten_cons]; exact List.mem_append.mpr (Or.inl hd))
    have hprepr : ∀ d ∈ rest.flatten, d.prep = none ∨ d.prep = some EOPNOTSUPP := by
      intro d hd
      exact hprep d (by rw [List.flatten_cons]; exact List.mem_append.mpr (Or.inr hd))
    intro h0 s cap idx0
    obtain ⟨bs1, bs2⟩ := dumpBucket_spec s b hprepb 0 cap
    cases hstop : (dumpBucket b s 0 cap).stop with
    | some e0 =>
      obtain ⟨g1, g2, _, g4, g5⟩ := bs2 e0 hstop
      have hred : dumpBuckets (b :: rest) h0 s cap idx0 =
          ⟨(dumpBucket b s 0 cap).encoded, h0, (dumpBucket b s 0 cap).idx, some e0⟩ := by
        simp [dumpBuckets, hstop]
      rw [hred]
      constructor
      · intro hn
        simp at hn
      · intro e he
        simp only [Option.some_inj] at he
        subst he
        refine ⟨g1, g2, le_refl h0, ?_⟩
        simp only [Nat.sub_self, List.drop_zero, remRel]
        rw [filterOk_append, ← List.append_assoc]
        simp only [Nat.sub_zero] at g5
        rw [g5, ← filterOk_append]
    | none =>
      obtain ⟨g1, g2, g3⟩ := bs1 hstop
      simp only [Nat.sub_zero] at g1
      obtain ⟨r1, r2⟩ := ih hprepr (h0 + 1) 0 (dumpBucket b s 0 cap).capLeft
        (dumpBucket b s 0 cap).idx
      have hred : dumpBuckets (b :: rest) h0 s cap idx0 =
          ⟨(dumpBucket b s 0 cap).encoded ++
             (dumpBuckets rest (h0 + 1) 0 (dumpBucket b s 0 cap).capLeft
               (dumpBucket b s 0 cap).idx).encoded,
           (dumpBuckets rest (h0 + 1) 0 (dumpBucket b s 0 cap).capLeft
             (dumpBucket b s 0 cap).idx).h,
           (dumpBuckets rest (h0 + 1) 0 (dumpBucket b s 0 cap).capLeft
             (dumpBucket b s 0 cap).idx).idx,
           (dumpBuckets rest (h0 + 1) 0 (dumpBucket b s 0 cap).capLeft
             (dumpBucket b s 0 cap).idx).stop⟩ := by
        simp [dumpBuckets, hstop]
      rw [hred]
      constructor
      · intro hn
        simp only at hn
        obtain ⟨q1, q2, q3⟩ := r1 hn
        rw [remRel_zero] at q1
        refine ⟨?_, ?_, ?_⟩
        · simp only
          rw [g1, q1, ← filterOk_append]
          rfl
        · simp only [List.length_append]
          omega
        · simp only [q3, List.length_cons]
          omega
      · intro e he
        simp only at he
        obtain ⟨q1, q2, q3, q4⟩ := r2 e he
        rw [remRel_zero] at q4
        refine ⟨q1, ?_, by simp only; omega, ?_⟩
        · simp only [List.length_append]
          omega
        · simp only
          have hdrop : (b :: rest).drop
              ((dumpBuckets rest (h0 + 1) 0 (dumpBucket b s 0 cap).capLeft
                (dumpBucket b s 0 cap).idx).h - h0) =
              rest.drop
                ((dumpBuckets rest (h0 + 1) 0 (dumpBucket b s 0 cap).capLeft
                  (dumpBucket b s 0 cap).idx).h - (h0 + 1)) := by
            have hh : (dumpBuckets rest (h0 + 1) 0 (dumpBucket b s 0 cap).capLeft
                (dumpBucket b s 0 cap).idx).h - h0 =
                ((dumpBuckets rest (h0 + 1) 0 (dumpBucket b s 0 cap).capLeft
                  (dumpBucket b s 0 cap).idx).h - (h0 + 1)) + 1 := by omega
            rw [hh, List.drop_succ_cons]
          rw [hdrop, List.append_assoc, q4, g1, ← filterOk_append]
          rfl

theorem ethnl_get_dumpit_spec (buckets : List (List DDev)) (s_h s_idx cap : Nat)
    (hprep : ∀ d ∈ buckets.flatten, d.prep = none ∨ d.prep = some EOPNOTSUPP)
    (hcap : 1 ≤ cap) :
    (ethnl_get_dumpit buckets s_h s_idx cap).res =
        .ok (ethnl_get_dumpit buckets s_h s_idx cap).encoded.length ∧
    (ethnl_get_dumpit buckets s_h s_idx cap).encoded ++
        filterOk (remAt buckets (ethnl_get_dumpit buckets s_h s_idx cap).h
          (ethnl_get_dumpit buckets s_h s_idx cap).idx) =
      filterOk (remAt buckets s_h s_idx) ∧
    ((ethnl_get_dumpit buckets s_h s_idx cap).encoded = [] →
      filterOk (remAt buckets s_h s_idx) = []) := by
  have hprep2 : ∀ d ∈ (buckets.drop s_h).flatten, d.prep = none ∨ d.prep = some EOPNOTSUPP := by
    intro d hd
    obtain ⟨l, hl, hdl⟩ := List.mem_flatten.mp hd
    exact hprep d (List.mem_flatten.mpr ⟨l, List.mem_of_mem_drop hl, hdl⟩)
  obtain ⟨b1, b2⟩ := dumpBuckets_spec (buckets.drop s_h) hprep2 s_h s_idx cap 0
  cases hstop : (dumpBuckets (buckets.drop s_h) s_h s_idx cap 0).stop with
  | none =>
    obtain ⟨g1, g2, g3⟩ := b1 hstop
    have hred : ethnl_get_dumpit buckets s_h s_idx cap =
        ⟨(dumpBuckets (buckets.drop s_h) s_h s_idx cap 0).encoded,
         (dumpBuckets (buckets.drop s_h) s_h s_idx cap 0).h,
         (dumpBuckets (buckets.drop s_h) s_h s_idx cap 0).idx,
         .ok (dumpBuckets (buckets.drop s_h) s_h s_idx cap 0).encoded.length⟩ := by
      simp [ethnl_get_dumpit, hstop]
    rw [hred]
    have hdropnil : buckets.drop (dumpBuckets (buckets.drop s_h) s_h s_idx cap 0).h = [] := by
      apply List.drop_eq_nil_of_le
      rw [g3, List.length_drop]
      omega
    refine ⟨rfl, ?_, ?_⟩
    · simp only [remAt, hdropnil, remRel, filterOk, List.filter_nil, List.append_nil]
      exact g1
    · intro hnil
      simp only at hnil
      simp only [remAt]
      rw [← g1]
      exact hnil
  | some e =>
    obtain ⟨g1, g2, g3, g4⟩ := b2 e hstop
    have hlen0 : (dumpBuckets (buckets.drop s_h) s_h s_idx cap 0).encoded.length ≠ 0 := by
      omega
    have hred : ethnl_get_dumpit buckets s_h s_idx cap =
        ⟨(dumpBuckets (buckets.drop s_h) s_h s_idx cap 0).encoded,
         (dumpBuckets (buckets.drop s_h) s_h s_idx cap 0).h,
         (dumpBuckets (buckets.drop s_h) s_h s_idx cap 0).idx,
         .ok (dumpBuckets (buckets.drop s_h) s_h s_idx cap 0).encoded.length⟩ := by
      simp [ethnl_get_dumpit, hstop, hlen0]
    rw [hred]
    refine ⟨rfl, ?_, ?_⟩
    · simp only [remAt]
      rw [List.drop_drop, Nat.add_sub_cancel' g3] at g4
      exact g4
    · intro hnil
      exfalso
      simp only at hnil
      rw [hnil] at g2
      simp at g2
      omega

theorem dumpSession_spec (buckets : List (List DDev))
    (hprep : ∀ d ∈ buckets.flatten, d.prep = none ∨ d.prep = some EOPNOTSUPP) :
    ∀ caps h i, (∀ c ∈ caps, 1 ≤ c) →
      (filterOk (remAt buckets h i)).length + 1 ≤ caps.length →
      dumpSession buckets (h, i) caps = some (filterOk (remAt buckets h i)) := by
  intro caps
  induction caps with
  | nil =>
    intro h i _ hlen
    simp at hlen
  | cons c caps ih =>
    intro h i hcap hlen
    have hc : 1 ≤ c := hcap c (List.mem_cons_self c caps)
    obtain ⟨s1, s2, s3⟩ := ethnl_get_dumpit_spec buckets h i c hprep hc
    simp only [dumpSession]
    rw [s1]
    simp only
    by_cases hnil : (ethnl_get_dumpit buckets h i c).encoded = []
    · rw [s3 hnil]
      simp [hnil]
    · have hlength : (ethnl_get_dumpit buckets h i c).encoded.length ≠ 0 :=
        fun hz => hnil (List.length_eq_zero.mp hz)
      have hl := congrArg List.length s2
      simp only [List.length_append] at hl
      have hbound : (filterOk (remAt buckets (ethnl_get_dumpit buckets h i c).h
          (ethnl_get_dumpit buckets h i c).idx)).length + 1 ≤ caps.length := by
        simp only [List.length_cons] at hlen
        omega
      have hrec := ih (ethnl_get_dumpit buckets h i c).h (ethnl_get_dumpit buckets h i c).idx
        (fun x hx => hcap x (List.mem_cons_of_mem c hx)) hbound
      rw [if_neg hlength, hrec]
      simp only
      rw [s2]

/-- C3: over a device table that does not change during the dump,
invoking `ethnl_get_dumpit` repeatedly with the cursor stored by the
previous invocation visits every device exactly once: provided every
buffer holds at least one reply unit and enough invocations are
scheduled, the session returns exactly the successfully prepared devices
of the whole table, each once, in table order (devices whose prepare
reports `-EOPNOTSUPP` are passed over without aborting), regardless of
how the devices are distributed over the hash buckets. -/
theorem dump_session_visits_each_device_once
    (buckets : List (List DDev)) (caps : List Nat)
    (hprep : ∀ d ∈ buckets.flatten, d.prep = none ∨ d.prep = some EOPNOTSUPP)
    (hcap : ∀ c ∈ caps, 1 ≤ c)
    (hlen : buckets.flatten.length + 1 ≤ caps.length) :
    dumpSession buckets (0, 0) caps = some (filterOk buckets.flatten) := by
  have h0 : remAt buckets 0 0 = buckets.flatten := by
    simp only [remAt, List.drop_zero]
    exact remRel_zero buckets
  have hb : (filterOk (remAt buckets 0 0)).length + 1 ≤ caps.length := by
    rw [h0]
    have hle := List.length_filter_le (fun d => d.prep.isNone) buckets.flatten
    simp only [filterOk]
    omega
  have hmain := dumpSession_spec buckets hprep caps 0 0 hcap hb
  rw [h0] at hmain
  exact hmain

theorem dump_session_visits_each_device_once_witness :
    dumpSession [[⟨1, none⟩], [], [⟨2, some EOPNOTSUPP⟩, ⟨3, none⟩]] (0, 0) [1, 1, 1, 1] =
      some (filterOk (List.flatten [[⟨1, none⟩], [], [⟨2, some EOPNOTSUPP⟩, ⟨3, none⟩]])) :=
  dump_session_visits_each_device_once
    [[⟨1, none⟩], [], [⟨2, some EOPNOTSUPP⟩, ⟨3, none⟩]] [1, 1, 1, 1]
    (by decide) (by decide) (by decide)

end EthNl
